import Mathlib

/-!
Verification of the supply-chain network topology visualization
(components AdvancedNetworkTopology, NetworkTopologyVisualization,
NetworkCanvasRenderer).

The numeric model: the source runs on JavaScript IEEE-754 doubles.  We model
JavaScript numbers by the type JSNum below: an exact rational together with
the three non-finite values +Infinity, -Infinity and NaN, with the JS
propagation rules for arithmetic, Math.min / Math.max, strict equality and
the global isNaN.  Rational arithmetic idealizes floats (no rounding or
overflow), which is the standard shallow embedding; all claims below are
about exact formulas, guard structure and state transitions, none about
rounding.
-/

/-- JavaScript number: a finite (rational) value, an infinity, or NaN. -/
inductive JSNum where
  | fin (q : ℚ)
  | posInf
  | negInf
  | nan
deriving DecidableEq

namespace JSNum

/-- True exactly on finite values. -/
def isFin : JSNum → Bool
  | .fin _ => true
  | _ => false

/-- Model of the JS global isNaN on numbers. -/
def isNaN : JSNum → Bool
  | .nan => true
  | _ => false

/-- JS addition with IEEE special-value propagation. -/
def add : JSNum → JSNum → JSNum
  | .nan, _ => .nan
  | _, .nan => .nan
  | .posInf, .negInf => .nan
  | .negInf, .posInf => .nan
  | .posInf, _ => .posInf
  | _, .posInf => .posInf
  | .negInf, _ => .negInf
  | _, .negInf => .negInf
  | .fin a, .fin b => .fin (a + b)

/-- JS unary minus. -/
def neg : JSNum → JSNum
  | .fin a => .fin (-a)
  | .posInf => .negInf
  | .negInf => .posInf
  | .nan => .nan

/-- JS subtraction, a - b = a + (-b) in IEEE semantics. -/
def sub (a b : JSNum) : JSNum := add a (neg b)

/-- JS multiplication with IEEE special-value propagation. -/
def mul : JSNum → JSNum → JSNum
  | .nan, _ => .nan
  | _, .nan => .nan
  | .fin a, .fin b => .fin (a * b)
  | .posInf, .posInf => .posInf
  | .posInf, .negInf => .negInf
  | .negInf, .posInf => .negInf
  | .negInf, .negInf => .posInf
  | .posInf, .fin b => if b = 0 then .nan else if 0 < b then .posInf else .negInf
  | .negInf, .fin b => if b = 0 then .nan else if 0 < b then .negInf else .posInf
  | .fin a, .posInf => if a = 0 then .nan else if 0 < a then .posInf else .negInf
  | .fin a, .negInf => if a = 0 then .nan else if 0 < a then .negInf else .posInf

/-- JS division: 0/0 = NaN, x/0 = signed infinity, Inf/Inf = NaN.
Signed zero is not modeled (the source never divides by a negative zero). -/
def div : JSNum → JSNum → JSNum
  | .nan, _ => .nan
  | _, .nan => .nan
  | .fin a, .fin b =>
      if b = 0 then (if a = 0 then .nan else if 0 < a then .posInf else .negInf)
      else .fin (a / b)
  | .fin _, .posInf => .fin 0
  | .fin _, .negInf => .fin 0
  | .posInf, .fin b => if 0 ≤ b then .posInf else .negInf
  | .negInf, .fin b => if 0 ≤ b then .negInf else .posInf
  | .posInf, .posInf => .nan
  | .posInf, .negInf => .nan
  | .negInf, .posInf => .nan
  | .negInf, .negInf => .nan

instance : Add JSNum := ⟨add⟩
instance : Neg JSNum := ⟨neg⟩
instance : Sub JSNum := ⟨sub⟩
instance : Mul JSNum := ⟨mul⟩
instance : Div JSNum := ⟨div⟩

/-- Math.min of two numbers (NaN absorbing). -/
def jsMin : JSNum → JSNum → JSNum
  | .nan, _ => .nan
  | _, .nan => .nan
  | .negInf, _ => .negInf
  | _, .negInf => .negInf
  | .posInf, b => b
  | a, .posInf => a
  | .fin a, .fin b => .fin (min a b)

/-- Math.max of two numbers (NaN absorbing). -/
def jsMax : JSNum → JSNum → JSNum
  | .nan, _ => .nan
  | _, .nan => .nan
  | .posInf, _ => .posInf
  | _, .posInf => .posInf
  | .negInf, b => b
  | a, .negInf => a
  | .fin a, .fin b => .fin (max a b)

/-- JS strict equality on numbers: NaN compares unequal to everything. -/
def seq : JSNum → JSNum → Bool
  | .nan, _ => false
  | _, .nan => false
  | .fin a, .fin b => a == b
  | .posInf, .posInf => true
  | .negInf, .negInf => true
  | _, _ => false

/-- Math.sqrt on the rational model: NaN for negative or NaN input,
+Infinity at +Infinity. On nonnegative rationals we use Rat.sqrt, which is
exact on perfect squares; the theorems below only ever evaluate the finite
branch at 0 (the coincident-centers case) or reason about it abstractly. -/
def jsSqrt : JSNum → JSNum
  | .nan => .nan
  | .negInf => .nan
  | .posInf => .posInf
  | .fin q => if q < 0 then .nan else .fin (Rat.sqrt q)

/-- Math.min spread over a list, with the JS empty-call identity +Infinity. -/
def jsMinList (l : List JSNum) : JSNum := l.foldl jsMin .posInf

/-- Math.max spread over a list, with the JS empty-call identity -Infinity. -/
def jsMaxList (l : List JSNum) : JSNum := l.foldl jsMax .negInf

@[simp] lemma fin_add_fin (a b : ℚ) : (fin a) + (fin b) = fin (a + b) := rfl

@[simp] lemma fin_sub_fin (a b : ℚ) : (fin a) - (fin b) = fin (a - b) := by
  show add (fin a) (neg (fin b)) = _
  show fin (a + -b) = _
  rw [← sub_eq_add_neg]

@[simp] lemma fin_mul_fin (a b : ℚ) : (fin a) * (fin b) = fin (a * b) := rfl

lemma fin_div_fin (a b : ℚ) (hb : b ≠ 0) : (fin a) / (fin b) = fin (a / b) := by
  show div _ _ = _
  simp [div, hb]

@[simp] lemma fin_div_fin_zero_zero : (fin 0) / (fin 0) = nan := by
  show div _ _ = _
  simp [div]

@[simp] lemma nan_add (x : JSNum) : nan + x = nan := by
  show add _ _ = _; cases x <;> rfl

@[simp] lemma add_nan (x : JSNum) : x + nan = nan := by
  show add _ _ = _; cases x <;> rfl

@[simp] lemma nan_mul (x : JSNum) : nan * x = nan := by
  show mul _ _ = _; cases x <;> rfl

@[simp] lemma mul_nan (x : JSNum) : x * nan = nan := by
  show mul _ _ = _; cases x <;> rfl

@[simp] lemma nan_div (x : JSNum) : nan / x = nan := by
  show div _ _ = _; cases x <;> rfl

@[simp] lemma div_nan (x : JSNum) : x / nan = nan := by
  show div _ _ = _; cases x <;> rfl

@[simp] lemma nan_sub (x : JSNum) : nan - x = nan := by
  show sub _ _ = _; cases x <;> rfl

@[simp] lemma sub_nan (x : JSNum) : x - nan = nan := by
  show sub _ _ = _; cases x <;> rfl

@[simp] lemma isNaN_fin (q : ℚ) : (fin q).isNaN = false := rfl

@[simp] lemma isNaN_nan : (nan : JSNum).isNaN = true := rfl

@[simp] lemma isFin_fin (q : ℚ) : (fin q).isFin = true := rfl

@[simp] lemma seq_fin_fin (a b : ℚ) : (fin a).seq (fin b) = (a == b) := rfl

/-- A subtraction can only be finite when both operands are finite. -/
lemma sub_eq_fin (a b : JSNum) (c : ℚ) (h : a - b = fin c) :
    ∃ p q, a = fin p ∧ b = fin q ∧ p - q = c := by
  have h' : add a (neg b) = fin c := h
  cases a <;> cases b <;> simp [add, neg] at h' <;>
    exact ⟨_, _, rfl, rfl, by rw [sub_eq_add_neg]; exact h'⟩

/-- A subtraction is +Infinity only from +Infinity on the left or -Infinity
on the right. -/
lemma sub_eq_posInf (a b : JSNum) (h : a - b = posInf) :
    a = posInf ∨ b = negInf := by
  cases a <;> cases b <;> simp_all [HSub.hSub, Sub.sub, sub, add, neg]

/-- A subtraction is -Infinity only from -Infinity on the left or +Infinity
on the right. -/
lemma sub_eq_negInf (a b : JSNum) (h : a - b = negInf) :
    a = negInf ∨ b = posInf := by
  cases a <;> cases b <;> simp_all [HSub.hSub, Sub.sub, sub, add, neg]

/-- A division yields an infinity only from a nonzero finite numerator over
zero, or from an infinite numerator over a finite denominator. -/
lemma div_eq_inf (a b : JSNum) (h : a / b = posInf ∨ a / b = negInf) :
    (∃ p, a = fin p ∧ p ≠ 0 ∧ b = fin 0) ∨
    ((a = posInf ∨ a = negInf) ∧ ∃ q, b = fin q) := by
  cases a <;> cases b <;>
    simp_all [HDiv.hDiv, Div.div, div] <;>
    split_ifs at h <;> simp_all

/-- Multiplying by a finite value yields an infinity only from an infinite
operand. -/
lemma mul_fin_eq_inf (a : JSNum) (c : ℚ)
    (h : a * fin c = posInf ∨ a * fin c = negInf) :
    a = posInf ∨ a = negInf := by
  cases a <;> simp_all [HMul.hMul, Mul.mul, mul]

/-- Adding a finite value yields an infinity only from an infinite operand. -/
lemma fin_add_eq_inf (c : ℚ) (a : JSNum)
    (h : fin c + a = posInf ∨ fin c + a = negInf) :
    a = posInf ∨ a = negInf := by
  cases a <;> simp_all [HAdd.hAdd, Add.add, add]

lemma foldl_jsMax_nan (l : List JSNum) : l.foldl jsMax nan = nan := by
  induction l with
  | nil => rfl
  | cons x tl ih =>
      have hx : jsMax nan x = nan := by cases x <;> rfl
      simp [List.foldl_cons, hx, ih]

lemma foldl_jsMin_nan (l : List JSNum) : l.foldl jsMin nan = nan := by
  induction l with
  | nil => rfl
  | cons x tl ih =>
      have hx : jsMin nan x = nan := by cases x <;> rfl
      simp [List.foldl_cons, hx, ih]

lemma foldl_jsMax_posInf (l : List JSNum) :
    l.foldl jsMax posInf = posInf ∨ l.foldl jsMax posInf = nan := by
  induction l with
  | nil => exact Or.inl rfl
  | cons x tl ih =>
      cases x with
      | nan => simp [List.foldl_cons, jsMax, foldl_jsMax_nan]
      | fin q => simpa [List.foldl_cons, jsMax] using ih
      | posInf => simpa [List.foldl_cons, jsMax] using ih
      | negInf => simpa [List.foldl_cons, jsMax] using ih

lemma foldl_jsMin_negInf (l : List JSNum) :
    l.foldl jsMin negInf = negInf ∨ l.foldl jsMin negInf = nan := by
  induction l with
  | nil => exact Or.inl rfl
  | cons x tl ih =>
      cases x with
      | nan => simp [List.foldl_cons, jsMin, foldl_jsMin_nan]
      | fin q => simpa [List.foldl_cons, jsMin] using ih
      | posInf => simpa [List.foldl_cons, jsMin] using ih
      | negInf => simpa [List.foldl_cons, jsMin] using ih

/-- A finite Math.max fold bounds any finite accumulator from below. -/
lemma foldl_jsMax_fin_le (l : List JSNum) :
    ∀ (q M : ℚ), l.foldl jsMax (fin q) = fin M → q ≤ M := by
  induction l with
  | nil => intro q M h; simp [List.foldl_nil] at h; simp [h]
  | cons x tl ih =>
      intro q M h
      rw [List.foldl_cons] at h
      cases x with
      | nan =>
          rw [show jsMax (fin q) nan = nan from rfl, foldl_jsMax_nan] at h
          exact absurd h (by simp)
      | posInf =>
          rw [show jsMax (fin q) posInf = posInf from rfl] at h
          rcases foldl_jsMax_posInf tl with h' | h' <;> rw [h'] at h <;>
            exact absurd h (by simp)
      | negInf =>
          rw [show jsMax (fin q) negInf = fin q from rfl] at h
          exact ih q M h
      | fin b =>
          rw [show jsMax (fin q) (fin b) = fin (max q b) from rfl] at h
          exact le_trans (le_max_left q b) (ih _ M h)

/-- A finite Math.min fold bounds any finite accumulator from above. -/
lemma foldl_jsMin_fin_le (l : List JSNum) :
    ∀ (q m : ℚ), l.foldl jsMin (fin q) = fin m → m ≤ q := by
  induction l with
  | nil => intro q m h; simp [List.foldl_nil] at h; simp [h]
  | cons x tl ih =>
      intro q m h
      rw [List.foldl_cons] at h
      cases x with
      | nan =>
          rw [show jsMin (fin q) nan = nan from rfl, foldl_jsMin_nan] at h
          exact absurd h (by simp)
      | negInf =>
          rw [show jsMin (fin q) negInf = negInf from rfl] at h
          rcases foldl_jsMin_negInf tl with h' | h' <;> rw [h'] at h <;>
            exact absurd h (by simp)
      | posInf =>
          rw [show jsMin (fin q) posInf = fin q from rfl] at h
          exact ih q m h
      | fin b =>
          rw [show jsMin (fin q) (fin b) = fin (min q b) from rfl] at h
          exact le_trans (ih _ m h) (min_le_left q b)

/-- A list containing NaN has a NaN Math.max fold. -/
lemma foldl_jsMax_of_mem_nan (l : List JSNum) :
    ∀ acc, nan ∈ l → l.foldl jsMax acc = nan := by
  induction l with
  | nil => intro acc h; cases h
  | cons x tl ih =>
      intro acc h
      rcases List.mem_cons.mp h with h | h
      · subst h
        rw [List.foldl_cons, show jsMax acc nan = nan by cases acc <;> rfl,
          foldl_jsMax_nan]
      · rw [List.foldl_cons]; exact ih _ h

/-- A list containing NaN has a NaN Math.min fold. -/
lemma foldl_jsMin_of_mem_nan (l : List JSNum) :
    ∀ acc, nan ∈ l → l.foldl jsMin acc = nan := by
  induction l with
  | nil => intro acc h; cases h
  | cons x tl ih =>
      intro acc h
      rcases List.mem_cons.mp h with h | h
      · subst h
        rw [List.foldl_cons, show jsMin acc nan = nan by cases acc <;> rfl,
          foldl_jsMin_nan]
      · rw [List.foldl_cons]; exact ih _ h

/-- A list containing +Infinity has a non-finite Math.max fold. -/
lemma foldl_jsMax_of_mem_posInf (l : List JSNum) :
    ∀ acc, posInf ∈ l →
      l.foldl jsMax acc = posInf ∨ l.foldl jsMax acc = nan := by
  induction l with
  | nil => intro acc h; cases h
  | cons x tl ih =>
      intro acc h
      rcases List.mem_cons.mp h with h | h
      · subst h
        rw [List.foldl_cons]
        cases acc with
        | nan =>
            rw [show jsMax nan posInf = nan from rfl, foldl_jsMax_nan]
            exact Or.inr rfl
        | fin q =>
            rw [show jsMax (fin q) posInf = posInf from rfl]
            exact foldl_jsMax_posInf tl
        | posInf =>
            rw [show jsMax posInf posInf = posInf from rfl]
            exact foldl_jsMax_posInf tl
        | negInf =>
            rw [show jsMax negInf posInf = posInf from rfl]
            exact foldl_jsMax_posInf tl
      · rw [List.foldl_cons]; exact ih _ h

/-- A list containing -Infinity has a non-finite Math.min fold. -/
lemma foldl_jsMin_of_mem_negInf (l : List JSNum) :
    ∀ acc, negInf ∈ l →
      l.foldl jsMin acc = negInf ∨ l.foldl jsMin acc = nan := by
  induction l with
  | nil => intro acc h; cases h
  | cons x tl ih =>
      intro acc h
      rcases List.mem_cons.mp h with h | h
      · subst h
        rw [List.foldl_cons]
        cases acc with
        | nan =>
            rw [show jsMin nan negInf = nan from rfl, foldl_jsMin_nan]
            exact Or.inr rfl
        | fin q =>
            rw [show jsMin (fin q) negInf = negInf from rfl]
            exact foldl_jsMin_negInf tl
        | posInf =>
            rw [show jsMin posInf negInf = negInf from rfl]
            exact foldl_jsMin_negInf tl
        | negInf =>
            rw [show jsMin negInf negInf = negInf from rfl]
            exact foldl_jsMin_negInf tl
      · rw [List.foldl_cons]; exact ih _ h

/-- Elements of a list with a finite Math.max fold are -Infinity or finite
values bounded by the fold. -/
lemma foldl_jsMax_mem_fin (l : List JSNum) :
    ∀ acc M, l.foldl jsMax acc = fin M →
      ∀ x ∈ l, x = negInf ∨ ∃ q, x = fin q ∧ q ≤ M := by
  induction l with
  | nil => intro acc M _ x hx; cases hx
  | cons y tl ih =>
      intro acc M h x hx
      rw [List.foldl_cons] at h
      rcases List.mem_cons.mp hx with hx | hx
      · subst hx
        cases x with
        | nan =>
            rw [show jsMax acc nan = nan by cases acc <;> rfl,
              foldl_jsMax_nan] at h
            exact absurd h (by simp)
        | posInf =>
            cases acc with
            | nan =>
                rw [show jsMax nan posInf = nan from rfl,
                  foldl_jsMax_nan] at h
                exact absurd h (by simp)
            | fin q =>
                rw [show jsMax (fin q) posInf = posInf from rfl] at h
                rcases foldl_jsMax_posInf tl with h' | h' <;>
                  rw [h'] at h <;> exact absurd h (by simp)
            | posInf =>
                rw [show jsMax posInf posInf = posInf from rfl] at h
                rcases foldl_jsMax_posInf tl with h' | h' <;>
                  rw [h'] at h <;> exact absurd h (by simp)
            | negInf =>
                rw [show jsMax negInf posInf = posInf from rfl] at h
                rcases foldl_jsMax_posInf tl with h' | h' <;>
                  rw [h'] at h <;> exact absurd h (by simp)
        | negInf => exact Or.inl rfl
        | fin q =>
            refine Or.inr ⟨q, rfl, ?_⟩
            cases acc with
            | nan =>
                rw [show jsMax nan (fin q) = nan from rfl,
                  foldl_jsMax_nan] at h
                exact absurd h (by simp)
            | posInf =>
                rw [show jsMax posInf (fin q) = posInf from rfl] at h
                rcases foldl_jsMax_posInf tl with h' | h' <;>
                  rw [h'] at h <;> exact absurd h (by simp)
            | negInf =>
                rw [show jsMax negInf (fin q) = fin q from rfl] at h
                exact foldl_jsMax_fin_le tl q M h
            | fin a =>
                rw [show jsMax (fin a) (fin q) = fin (max a q) from rfl] at h
                exact le_trans (le_max_right a q) (foldl_jsMax_fin_le tl _ M h)
      · exact ih _ M h x hx

/-- Elements of a list with a finite Math.min fold are +Infinity or finite
values bounded below by the fold. -/
lemma foldl_jsMin_mem_fin (l : List JSNum) :
    ∀ acc m, l.foldl jsMin acc = fin m →
      ∀ x ∈ l, x = posInf ∨ ∃ q, x = fin q ∧ m ≤ q := by
  induction l with
  | nil => intro acc m _ x hx; cases hx
  | cons y tl ih =>
      intro acc m h x hx
      rw [List.foldl_cons] at h
      rcases List.mem_cons.mp hx with hx | hx
      · subst hx
        cases x with
        | nan =>
            rw [show jsMin acc nan = nan by cases acc <;> rfl,
              foldl_jsMin_nan] at h
            exact absurd h (by simp)
        | negInf =>
            cases acc with
            | nan =>
                rw [show jsMin nan negInf = nan from rfl,
                  foldl_jsMin_nan] at h
                exact absurd h (by simp)
            | fin q =>
                rw [show jsMin (fin q) negInf = negInf from rfl] at h
                rcases foldl_jsMin_negInf tl with h' | h' <;>
                  rw [h'] at h <;> exact absurd h (by simp)
            | posInf =>
                rw [show jsMin posInf negInf = negInf from rfl] at h
                rcases foldl_jsMin_negInf tl with h' | h' <;>
                  rw [h'] at h <;> exact absurd h (by simp)
            | negInf =>
                rw [show jsMin negInf negInf = negInf from rfl] at h
                rcases foldl_jsMin_negInf tl with h' | h' <;>
                  rw [h'] at h <;> exact absurd h (by simp)
        | posInf => exact Or.inl rfl
        | fin q =>
            refine Or.inr ⟨q, rfl, ?_⟩
            cases acc with
            | nan =>
                rw [show jsMin nan (fin q) = nan from rfl,
                  foldl_jsMin_nan] at h
                exact absurd h (by simp)
            | negInf =>
                rw [show jsMin negInf (fin q) = negInf from rfl] at h
                rcases foldl_jsMin_negInf tl with h' | h' <;>
                  rw [h'] at h <;> exact absurd h (by simp)
            | posInf =>
                rw [show jsMin posInf (fin q) = fin q from rfl] at h
                exact foldl_jsMin_fin_le tl q m h
            | fin a =>
                rw [show jsMin (fin a) (fin q) = fin (min a q) from rfl] at h
                exact le_trans (foldl_jsMin_fin_le tl _ m h) (min_le_right a q)
      · exact ih _ m h x hx

/-- Any member of a list whose Math.min and Math.max folds are both finite
is itself a finite value between them. -/
lemma mem_fin_of_minmax (l : List JSNum) (m M : ℚ)
    (hmin : jsMinList l = fin m) (hmax : jsMaxList l = fin M) :
    ∀ x ∈ l, ∃ q, x = fin q ∧ m ≤ q ∧ q ≤ M := by
  intro x hx
  have hmin' : l.foldl jsMin posInf = fin m := hmin
  have hmax' : l.foldl jsMax negInf = fin M := hmax
  rcases foldl_jsMax_mem_fin l negInf M hmax' x hx with hneg | ⟨q, hq, hqM⟩
  · subst hneg
    rcases foldl_jsMin_of_mem_negInf l posInf hx with h' | h' <;>
      rw [hmin'] at h' <;> exact absurd h' (by simp)
  · rcases foldl_jsMin_mem_fin l posInf m hmin' x hx with hpos | ⟨q', hq', hmq⟩
    · rw [hpos] at hq; exact absurd hq (by simp)
    · rw [hq] at hq'
      injection hq' with hqq
      exact ⟨q, hq, by rw [hqq]; exact hmq, hqM⟩

end JSNum

/-- Input facility record (the node list handed to both components):
id, name, type, lat, lng plus optional metadata. -/
structure NetworkNode where
  id : String
  name : String
  type : String
  lat : JSNum
  lng : JSNum
  capacity : Option ℚ := none
  production : Option ℚ := none
  district : Option String := none
deriving DecidableEq

/-- Input route record: id, from_id, to_id, distance_km, cost_per_trip,
vehicle_type. -/
structure NetworkRoute where
  id : String
  from_id : String
  to_id : String
  distance_km : ℚ
  cost_per_trip : ℚ
  vehicle_type : String
deriving DecidableEq

/-- Per-category visual configuration entry: color and size. -/
structure NodeConfig where
  color : String
  size : ℚ
deriving DecidableEq

/-- The nodeTypeConfig lookup with its default fallback, shared by both
components: nodeTypeConfig of the type string, or the default entry. -/
def nodeTypeConfig (t : String) : NodeConfig :=
  if t = "farm" then ⟨"#10B981", 25⟩
  else if t = "collection_center" then ⟨"#3B82F6", 30⟩
  else if t = "processing_plant" then ⟨"#8B5CF6", 35⟩
  else if t = "distributor" then ⟨"#F59E0B", 30⟩
  else if t = "retail" then ⟨"#EF4444", 25⟩
  else ⟨"#6B7280", 25⟩

/-- Shared x-projection formula of both components:
pad plus (lng - minLng) / (maxLng - minLng) times (w - 2 pad). -/
def projX (pad w : ℚ) (minLng maxLng lng : JSNum) : JSNum :=
  .fin pad + (lng - minLng) / (maxLng - minLng) * .fin (w - 2 * pad)

/-- Shared y-projection formula of both components (inverted axis):
pad plus (maxLat - lat) / (maxLat - minLat) times (h - 2 pad). -/
def projY (pad h : ℚ) (minLat maxLat lat : JSNum) : JSNum :=
  .fin pad + (maxLat - lat) / (maxLat - minLat) * .fin (h - 2 * pad)

/-- The pattern `isNaN(v) ? fallback : v` applied to a computed coordinate,
with the fallback always a concrete finite number. -/
def fixNaN (v : JSNum) (fallback : ℚ) : JSNum :=
  if v.isNaN then .fin fallback else v

namespace Adv

/-! Model of the AdvancedNetworkTopology component (source file part_000)
together with its NetworkCanvasRenderer. -/

def canvasWidth : ℚ := 800
def canvasHeight : ℚ := 600
def padding : ℚ := 60

/-- Derived canvas node of AdvancedNetworkTopology (interface CanvasNode). -/
structure CanvasNode where
  id : String
  name : String
  x : JSNum
  y : JSNum
  radius : ℚ
  color : String
  type : String
  isSelected : Bool
  isHovered : Bool
deriving DecidableEq

/-- Derived canvas route of AdvancedNetworkTopology (interface CanvasRoute):
edge-trimmed endpoints plus visual attributes. -/
structure CanvasRoute where
  id : String
  fromX : JSNum
  fromY : JSNum
  toX : JSNum
  toY : JSNum
  isHighlighted : Bool
  color : String
  width : ℚ
  distance : ℚ
  cost : ℚ
  vehicleType : String
deriving DecidableEq

/-- One step of the node-building map in the initialization effect of
AdvancedNetworkTopology: config lookup, degenerate-bounds check with random
placement, projection formula, and the isNaN fallback. The two rationals rx
and ry stand for the Math.random() draws available to this node (each branch
consumes at most one draw per axis, so sharing an index per axis only
renumbers the random stream). -/
def mkCanvasNode (minLng maxLng minLat maxLat : JSNum) (rx ry : ℚ)
    (node : NetworkNode) : CanvasNode :=
  let config := nodeTypeConfig node.type
  let raw : JSNum × JSNum :=
    if maxLng.seq minLng || maxLat.seq minLat then
      (.fin (canvasWidth / 2 + (rx - 1/2) * 200),
       .fin (canvasHeight / 2 + (ry - 1/2) * 200))
    else
      (projX padding canvasWidth minLng maxLng node.lng,
       projY padding canvasHeight minLat maxLat node.lat)
  { id := node.id
    name := node.name
    x := fixNaN raw.1 (rx * (canvasWidth - 2 * padding) + padding)
    y := fixNaN raw.2 (ry * (canvasHeight - 2 * padding) + padding)
    radius := config.size
    color := config.color
    type := node.type
    isSelected := false
    isHovered := false }

/-- The map over input nodes, threading an index into the random stream. -/
def buildNodes (minLng maxLng minLat maxLat : JSNum) (rand : ℕ → ℚ) :
    ℕ → List NetworkNode → List CanvasNode
  | _, [] => []
  | i, node :: rest =>
      mkCanvasNode minLng maxLng minLat maxLat (rand (2 * i))
          (rand (2 * i + 1)) node
        :: buildNodes minLng maxLng minLat maxLat rand (i + 1) rest

/-- The newCanvasNodes computation of the initialization effect: coordinate
bounds over the whole input, then the per-node conversion. -/
def newCanvasNodes (inputNodes : List NetworkNode) (rand : ℕ → ℚ) :
    List CanvasNode :=
  let latitudes := inputNodes.map (·.lat)
  let longitudes := inputNodes.map (·.lng)
  buildNodes (JSNum.jsMinList longitudes) (JSNum.jsMaxList longitudes)
    (JSNum.jsMinList latitudes) (JSNum.jsMaxList latitudes) rand 0 inputNodes

/-- Edge-trimmed route construction of newCanvasRoutes, applied once the two
endpoint nodes have been resolved: connection points on the node circles via
dx, dy, distance = Math.sqrt(dx*dx + dy*dy) and the division by distance. -/
def mkCanvasRoute (route : NetworkRoute) (fromNode toNode : CanvasNode) :
    CanvasRoute :=
  let dx := toNode.x - fromNode.x
  let dy := toNode.y - fromNode.y
  let distance := (dx * dx + dy * dy).jsSqrt
  { id := route.id
    fromX := fromNode.x + dx / distance * .fin fromNode.radius
    fromY := fromNode.y + dy / distance * .fin fromNode.radius
    toX := toNode.x - dx / distance * .fin toNode.radius
    toY := toNode.y - dy / distance * .fin toNode.radius
    isHighlighted := false
    color := "#94A3B8"
    width := 2
    distance := route.distance_km
    cost := route.cost_per_trip
    vehicleType := route.vehicle_type }

/-- The newCanvasRoutes computation: resolve both endpoints by id, return
null for a dangling reference, then filter the nulls away (the source maps
and then filters with Boolean; filterMap is that fused composition). -/
def newCanvasRoutes (ns : List CanvasNode) (rs : List NetworkRoute) :
    List CanvasRoute :=
  rs.filterMap (fun route =>
    match ns.find? (fun n => n.id == route.from_id),
        ns.find? (fun n => n.id == route.to_id) with
    | some fromNode, some toNode => some (mkCanvasRoute route fromNode toNode)
    | _, _ => none)

/-- The whole initialization effect: on an empty input node list it returns
early, leaving the mount-time state (empty canvas node and route lists). -/
def initCanvas (inputNodes : List NetworkNode) (inputRoutes : List NetworkRoute)
    (rand : ℕ → ℚ) : List CanvasNode × List CanvasRoute :=
  if inputNodes.isEmpty then ([], [])
  else
    let ns := newCanvasNodes inputNodes rand
    (ns, newCanvasRoutes ns inputRoutes)

end Adv

namespace NTV

/-! Model of the NetworkTopologyVisualization component. -/

def canvasWidth : ℚ := 800
def canvasHeight : ℚ := 600
def padding : ℚ := 50

/-- Derived scene node of NetworkTopologyVisualization (interface
NetworkNode of that file), as produced by the initialization effect. -/
structure SceneNode where
  id : String
  name : String
  type : String
  x : JSNum
  y : JSNum
  radius : ℚ
  color : String
  isSelected : Bool
  isDragging : Bool
  capacity : Option ℚ
  production : Option ℚ
  district : Option String
deriving DecidableEq

/-- Route record kept in component state (interface NetworkRoute of that
file): endpoint ids and flags, no coordinates. -/
structure SceneRoute where
  id : String
  fromNodeId : String
  toNodeId : String
  distance : ℚ
  cost : ℚ
  vehicleType : String
  isActive : Bool
  isHighlighted : Bool
deriving DecidableEq

/-- Per-node conversion of the initialization effect of
NetworkTopologyVisualization: the projection formula with no degenerate-
bounds branch, followed by the isNaN fallback. -/
def mkSceneNode (minLng maxLng minLat maxLat : JSNum) (rx ry : ℚ)
    (node : NetworkNode) : SceneNode :=
  let config := nodeTypeConfig node.type
  let x := projX padding canvasWidth minLng maxLng node.lng
  let y := projY padding canvasHeight minLat maxLat node.lat
  { id := node.id
    name := node.name
    type := node.type
    x := fixNaN x (rx * (canvasWidth - 2 * padding) + padding)
    y := fixNaN y (ry * (canvasHeight - 2 * padding) + padding)
    radius := config.size
    color := config.color
    isSelected := false
    isDragging := false
    capacity := node.capacity
    production := node.production
    district := node.district }

/-- The map over input nodes, threading an index into the random stream. -/
def buildSceneNodes (minLng maxLng minLat maxLat : JSNum) (rand : ℕ → ℚ) :
    ℕ → List NetworkNode → List SceneNode
  | _, [] => []
  | i, node :: rest =>
      mkSceneNode minLng maxLng minLat maxLat (rand (2 * i))
          (rand (2 * i + 1)) node
        :: buildSceneNodes minLng maxLng minLat maxLat rand (i + 1) rest

/-- The networkNodes computation of the initialization effect. -/
def networkNodes (inputNodes : List NetworkNode) (rand : ℕ → ℚ) :
    List SceneNode :=
  let latitudes := inputNodes.map (·.lat)
  let longitudes := inputNodes.map (·.lng)
  buildSceneNodes (JSNum.jsMinList longitudes) (JSNum.jsMaxList longitudes)
    (JSNum.jsMinList latitudes) (JSNum.jsMaxList latitudes) rand 0 inputNodes

/-- The networkRoutes computation: a direct map of the input route list into
state, with no endpoint validation. -/
def networkRoutes (inputRoutes : List NetworkRoute) : List SceneRoute :=
  inputRoutes.map (fun route =>
    { id := route.id
      fromNodeId := route.from_id
      toNodeId := route.to_id
      distance := route.distance_km
      cost := route.cost_per_trip
      vehicleType := route.vehicle_type
      isActive := true
      isHighlighted := false })

/-- The whole initialization effect of NetworkTopologyVisualization: early
return on an empty node list, else networkNodes and networkRoutes. -/
def initNetwork (inputNodes : List NetworkNode)
    (inputRoutes : List NetworkRoute) (rand : ℕ → ℚ) :
    List SceneNode × List SceneRoute :=
  if inputNodes.isEmpty then ([], [])
  else (networkNodes inputNodes rand, networkRoutes inputRoutes)

/-- The geometric payload of one drawRoute call: the line segment the canvas
is asked to draw for a route. -/
structure DrawnSegment where
  fromX : JSNum
  fromY : JSNum
  toX : JSNum
  toY : JSNum
  highlighted : Bool
deriving DecidableEq

/-- Model of drawRoute of NetworkTopologyVisualization: resolve endpoints in
the scene node list and return early (draw nothing) on a dangling
reference; otherwise emit the edge-trimmed segment, with no guard on the
distance division. -/
def drawRoute (nodes : List SceneNode) (route : SceneRoute) :
    Option DrawnSegment :=
  match nodes.find? (fun n => n.id == route.fromNodeId),
      nodes.find? (fun n => n.id == route.toNodeId) with
  | some fromNode, some toNode =>
      let dx := toNode.x - fromNode.x
      let dy := toNode.y - fromNode.y
      let distance := (dx * dx + dy * dy).jsSqrt
      some
        { fromX := fromNode.x + dx / distance * .fin fromNode.radius
          fromY := fromNode.y + dy / distance * .fin fromNode.radius
          toX := toNode.x - dx / distance * .fin toNode.radius
          toY := toNode.y - dy / distance * .fin toNode.radius
          highlighted := route.isHighlighted }
  | _, _ => none

end NTV


/-- Inverse transform shared by the mouse handlers of both components
(getMousePos and the renderer handlers): world = (client - pan) / zoom. -/
def getMousePos (pan : ℚ × ℚ) (zoom : ℚ) (client : ℚ × ℚ) : ℚ × ℚ :=
  ((client.1 - pan.1) / zoom, (client.2 - pan.2) / zoom)

/-- Forward transform applied by the draw functions before any draw call:
ctx.translate(pan) followed by ctx.scale(zoom) maps a world point w to the
device point pan + zoom * w. -/
def canvasTransform (pan : ℚ × ℚ) (zoom : ℚ) (w : ℚ × ℚ) : ℚ × ℚ :=
  (pan.1 + zoom * w.1, pan.2 + zoom * w.2)

/-- Circular hit test of the mouse handlers, in decidable polynomial form.
The source predicate is Math.sqrt(dx*dx + dy*dy) <= radius; the lemma
withinCircle_iff_sqrt below proves this boolean equal to that real
inequality, so the embedding is exact. -/
def withinCircle (wx wy cx cy r : ℚ) : Bool :=
  decide ((wx - cx) * (wx - cx) + (wy - cy) * (wy - cy) ≤ r * r) &&
    decide (0 ≤ r)

/-- Faithfulness of withinCircle to the square-root form in the source. -/
lemma withinCircle_iff_sqrt (wx wy cx cy r : ℚ) :
    withinCircle wx wy cx cy r = true ↔
      Real.sqrt (((wx : ℝ) - cx) * ((wx : ℝ) - cx) +
          ((wy : ℝ) - cy) * ((wy : ℝ) - cy)) ≤ (r : ℝ) := by
  rw [Real.sqrt_le_iff, withinCircle]
  simp only [Bool.and_eq_true, decide_eq_true_eq]
  constructor
  · rintro ⟨h1, h2⟩
    refine ⟨by exact_mod_cast h2, ?_⟩
    have : ((wx : ℝ) - cx) * ((wx : ℝ) - cx) + ((wy : ℝ) - cy) *
        ((wy : ℝ) - cy) ≤ (r : ℝ) * r := by exact_mod_cast h1
    calc ((wx : ℝ) - cx) * ((wx : ℝ) - cx) + ((wy : ℝ) - cy) * ((wy : ℝ) - cy)
        ≤ (r : ℝ) * r := this
      _ = (r : ℝ) ^ 2 := by ring
  · rintro ⟨h2, h1⟩
    have : ((wx : ℝ) - cx) * ((wx : ℝ) - cx) + ((wy : ℝ) - cy) *
        ((wy : ℝ) - cy) ≤ (r : ℝ) * r := by
      calc ((wx : ℝ) - cx) * ((wx : ℝ) - cx) + ((wy : ℝ) - cy) * ((wy : ℝ) - cy)
          ≤ (r : ℝ) ^ 2 := h1
        _ = (r : ℝ) * r := by ring
    exact ⟨by exact_mod_cast this, by exact_mod_cast h2⟩

namespace Adv

/-- Interaction-layer view of a canvas node: the fields the mouse handlers
and the selection-synchronization effects read or write. Coordinates are
rationals: by the non-finite-fallback theorem every scene coordinate is
finite. -/
structure UINode where
  id : String
  x : ℚ
  y : ℚ
  radius : ℚ
  isSelected : Bool
  isHovered : Bool
deriving DecidableEq

/-- Interaction-layer view of a canvas route: the fields the highlight
synchronization effect reads or writes. -/
structure UIRoute where
  id : String
  isHighlighted : Bool
deriving DecidableEq

/-- Component state of AdvancedNetworkTopology: the useState cells. -/
structure AdvState where
  canvasNodes : List UINode
  canvasRoutes : List UIRoute
  selectedNodeId : Option String
  selectedRouteId : Option String
  hoveredNodeId : Option String
  zoom : ℚ
  pan : ℚ × ℚ
  showLabels : Bool
  showGrid : Bool
  showRoutes : Bool
deriving DecidableEq

/-- Mount-time state: empty selections, zoom 1, pan (0,0), toggles on. -/
def initState (ns : List UINode) (rs : List UIRoute) : AdvState :=
  { canvasNodes := ns
    canvasRoutes := rs
    selectedNodeId := none
    selectedRouteId := none
    hoveredNodeId := none
    zoom := 1
    pan := (0, 0)
    showLabels := true
    showGrid := true
    showRoutes := true }

/-- Handler handleNodeClick: toggle the node selection, clear the route
selection. -/
def handleNodeClick (s : AdvState) (nodeId : String) : AdvState :=
  { s with
    selectedNodeId := if s.selectedNodeId = some nodeId then none
      else some nodeId
    selectedRouteId := none }

/-- Handler handleCanvasClick: clear both selections. -/
def handleCanvasClick (s : AdvState) : AdvState :=
  { s with selectedNodeId := none, selectedRouteId := none }

/-- Handler handleNodeHover. -/
def handleNodeHover (s : AdvState) (nodeId : Option String) : AdvState :=
  { s with hoveredNodeId := nodeId }

/-- Handler handleRouteSelect: toggle the route selection, clear the node
selection. -/
def handleRouteSelect (s : AdvState) (routeId : String) : AdvState :=
  { s with
    selectedRouteId := if s.selectedRouteId = some routeId then none
      else some routeId
    selectedNodeId := none }

/-- Handler handleZoomIn: multiply by 1.2, clamp at 3. -/
def handleZoomIn (s : AdvState) : AdvState :=
  { s with zoom := min (s.zoom * (6/5)) 3 }

/-- Handler handleZoomOut: divide by 1.2, clamp at 0.3. -/
def handleZoomOut (s : AdvState) : AdvState :=
  { s with zoom := max (s.zoom / (6/5)) (3/10) }

/-- Handler handleReset: zoom 1, pan (0,0), clear all three id cells. -/
def handleReset (s : AdvState) : AdvState :=
  { s with
    zoom := 1
    pan := (0, 0)
    selectedNodeId := none
    selectedRouteId := none
    hoveredNodeId := none }

/-- The two synchronization effects that bake the selection / hover /
highlight ids into the per-node and per-route flags after a state change. -/
def syncFlags (s : AdvState) : AdvState :=
  { s with
    canvasNodes := s.canvasNodes.map (fun n =>
      { n with
        isSelected := some n.id == s.selectedNodeId
        isHovered := some n.id == s.hoveredNodeId })
    canvasRoutes := s.canvasRoutes.map (fun r =>
      { r with isHighlighted := some r.id == s.selectedRouteId }) }

/-- The hit test of the renderer handlers: first node in iteration order
whose circle contains the world point. -/
def nodeAtPoint (nodes : List UINode) (w : ℚ × ℚ) : Option UINode :=
  nodes.find? (fun n => withinCircle w.1 w.2 n.x n.y n.radius)

/-- Renderer handleClick composed with the component callbacks: convert the
client point by the inverse transform, hit-test, then either
handleNodeClick or handleCanvasClick. -/
def handleClick (s : AdvState) (client : ℚ × ℚ) : AdvState :=
  let w := getMousePos s.pan s.zoom client
  match nodeAtPoint s.canvasNodes w with
  | some clickedNode => handleNodeClick s clickedNode.id
  | none => handleCanvasClick s

/-- Renderer handleMouseMove composed with handleNodeHover. -/
def handleMouseMove (s : AdvState) (client : ℚ × ℚ) : AdvState :=
  let w := getMousePos s.pan s.zoom client
  handleNodeHover s ((nodeAtPoint s.canvasNodes w).map (·.id))

/-- The interaction operations that can reach the component state. -/
inductive AdvOp where
  | clickAt (client : ℚ × ℚ)
  | moveAt (client : ℚ × ℚ)
  | nodeClick (nodeId : String)
  | routeSelect (routeId : String)
  | canvasClick
  | hover (nodeId : Option String)
  | zoomIn
  | zoomOut
  | reset
deriving DecidableEq

/-- One interaction step: the handler followed by the synchronization
effects React runs before the next event is processed. -/
def applyOp (s : AdvState) : AdvOp → AdvState
  | .clickAt p => syncFlags (handleClick s p)
  | .moveAt p => syncFlags (handleMouseMove s p)
  | .nodeClick i => syncFlags (handleNodeClick s i)
  | .routeSelect i => syncFlags (handleRouteSelect s i)
  | .canvasClick => syncFlags (handleCanvasClick s)
  | .hover i => syncFlags (handleNodeHover s i)
  | .zoomIn => syncFlags (handleZoomIn s)
  | .zoomOut => syncFlags (handleZoomOut s)
  | .reset => syncFlags (handleReset s)

/-- Run a sequence of interaction operations. -/
def runOps (s : AdvState) (ops : List AdvOp) : AdvState := ops.foldl applyOp s

end Adv

namespace NTV

/-- Interaction-layer view of a scene node of NetworkTopologyVisualization:
the fields the mouse handlers read or write. Coordinates are rationals (all
scene coordinates are finite by the non-finite-fallback theorem). -/
structure Node where
  id : String
  x : ℚ
  y : ℚ
  radius : ℚ
  isSelected : Bool
  isDragging : Bool
deriving DecidableEq

/-- Component state of NetworkTopologyVisualization: the useState cells. -/
structure State where
  nodes : List Node
  routes : List SceneRoute
  selectedNode : Option Node
  selectedRoute : Option SceneRoute
  isDragging : Bool
  dragOffset : ℚ × ℚ
  zoom : ℚ
  pan : ℚ × ℚ
  showLabels : Bool
  showRoutes : Bool
deriving DecidableEq

/-- Mount-time state. -/
def initState (ns : List Node) (rs : List SceneRoute) : State :=
  { nodes := ns
    routes := rs
    selectedNode := none
    selectedRoute := none
    isDragging := false
    dragOffset := (0, 0)
    zoom := 1
    pan := (0, 0)
    showLabels := true
    showRoutes := true }

/-- Handler handleMouseDown: hit-test at the inverse-transformed mouse
position; on a hit store the clicked node as selected, start a drag and
bake the selection flag; on a miss clear the node selection only. The
route selection cell is not touched in either branch. -/
def handleMouseDown (s : State) (client : ℚ × ℚ) : State :=
  let mousePos := getMousePos s.pan s.zoom client
  match s.nodes.find? (fun n =>
      withinCircle mousePos.1 mousePos.2 n.x n.y n.radius) with
  | some clickedNode =>
      { s with
        selectedNode := some clickedNode
        isDragging := true
        dragOffset := (mousePos.1 - clickedNode.x, mousePos.2 - clickedNode.y)
        nodes := s.nodes.map (fun n =>
          { n with isSelected := n.id == clickedNode.id }) }
  | none =>
      { s with
        selectedNode := none
        nodes := s.nodes.map (fun n => { n with isSelected := false }) }

/-- Handler handleMouseMove: while dragging, move the selected node to the
mouse position minus the captured drag offset. -/
def handleMouseMove (s : State) (client : ℚ × ℚ) : State :=
  match s.selectedNode with
  | some sel =>
      if s.isDragging then
        let mousePos := getMousePos s.pan s.zoom client
        let newX := mousePos.1 - s.dragOffset.1
        let newY := mousePos.2 - s.dragOffset.2
        { s with nodes := s.nodes.map (fun n =>
            if n.id == sel.id then { n with x := newX, y := newY } else n) }
      else s
  | none => s

/-- Handler handleMouseUp. -/
def handleMouseUp (s : State) : State := { s with isDragging := false }

/-- Handler handleRouteHover: the hovered route gets the isHovering value,
every other route is cleared. -/
def handleRouteHover (s : State) (routeId : String) (isHovering : Bool) :
    State :=
  { s with routes := s.routes.map (fun r =>
      { r with isHighlighted := if r.id == routeId then isHovering
          else false }) }

/-- Handler handleRouteSelect: store the route as selected and highlight
it. The node selection cell is not touched. -/
def handleRouteSelect (s : State) (route : SceneRoute) : State :=
  handleRouteHover { s with selectedRoute := some route } route.id true

/-- Handler handleReset of NetworkTopologyVisualization: zoom 1, pan (0,0),
clear both selection cells, clear every per-node selection flag and every
per-route highlight flag. -/
def handleReset (s : State) : State :=
  { s with
    zoom := 1
    pan := (0, 0)
    selectedNode := none
    selectedRoute := none
    nodes := s.nodes.map (fun n => { n with isSelected := false })
    routes := s.routes.map (fun r => { r with isHighlighted := false }) }

end NTV

/-- Connector geometry of the route drawing code (drawRoute in
NetworkTopologyVisualization, the same formula in newCanvasRoutes of
AdvancedNetworkTopology) over exact reals: dx, dy, the Euclidean distance,
and the trimmed endpoints obtained by moving each center along the
direction by the respective radius. Result: (fromPoint, toPoint). -/
noncomputable def connectorGeometry (x1 y1 r1 x2 y2 r2 : ℝ) :
    (ℝ × ℝ) × (ℝ × ℝ) :=
  let dx := x2 - x1
  let dy := y2 - y1
  let distance := Real.sqrt (dx * dx + dy * dy)
  ((x1 + dx / distance * r1, y1 + dy / distance * r1),
   (x2 - dx / distance * r2, y2 - dy / distance * r2))

/-- Two plane vectors point the same way: one is a positive multiple of the
other. -/
def sameDir (u v : ℝ × ℝ) : Prop := ∃ t : ℝ, 0 < t ∧ u = (t * v.1, t * v.2)

/-- Euclidean distance between two plane points. -/
noncomputable def planeDist (a b : ℝ × ℝ) : ℝ :=
  Real.sqrt ((a.1 - b.1) * (a.1 - b.1) + (a.2 - b.2) * (a.2 - b.2))

/-- Concrete sample interaction node for the Advanced component. -/
def sampleUINodeA : Adv.UINode :=
  { id := "a", x := 0, y := 0, radius := 25, isSelected := false,
    isHovered := false }

/-- Second sample node, overlapping the first. -/
def sampleUINodeB : Adv.UINode :=
  { id := "b", x := 10, y := 0, radius := 25, isSelected := false,
    isHovered := false }

/-- Concrete sample interaction node for NetworkTopologyVisualization. -/
def sampleNTVNode : NTV.Node :=
  { id := "n1", x := 0, y := 0, radius := 25, isSelected := false,
    isDragging := false }

/-- Concrete sample route record for NetworkTopologyVisualization. -/
def sampleSceneRoute : NTV.SceneRoute :=
  { id := "r1", fromNodeId := "n1", toNodeId := "n1", distance := 1,
    cost := 1, vehicleType := "truck", isActive := true,
    isHighlighted := false }

lemma someBeqNone (a : String) : (some a == (none : Option String)) = false :=
  rfl

lemma applyOp_exclusive (s : Adv.AdvState) (op : Adv.AdvOp)
    (h : s.selectedNodeId = none ∨ s.selectedRouteId = none) :
    (Adv.applyOp s op).selectedNodeId = none ∨
      (Adv.applyOp s op).selectedRouteId = none := by
  cases op with
  | clickAt p =>
      rw [Adv.applyOp, Adv.handleClick]
      cases Adv.nodeAtPoint s.canvasNodes
          (getMousePos s.pan s.zoom p) with
      | some n =>
          exact Or.inr rfl
      | none =>
          exact Or.inr rfl
  | moveAt p => exact h
  | nodeClick i => exact Or.inr rfl
  | routeSelect i => exact Or.inl rfl
  | canvasClick => exact Or.inr rfl
  | hover i => exact h
  | zoomIn => exact h
  | zoomOut => exact h
  | reset => exact Or.inr rfl

lemma runOps_exclusive (ops : List Adv.AdvOp) :
    ∀ s : Adv.AdvState,
      (s.selectedNodeId = none ∨ s.selectedRouteId = none) →
      ((Adv.runOps s ops).selectedNodeId = none ∨
        (Adv.runOps s ops).selectedRouteId = none) := by
  induction ops with
  | nil => intro s h; exact h
  | cons op tl ih =>
      intro s h
      have : Adv.runOps s (op :: tl) = Adv.runOps (Adv.applyOp s op) tl := rfl
      rw [this]
      exact ih _ (applyOp_exclusive s op h)

/-- C1 (corrected). In the AdvancedNetworkTopology component, selection is
mutually exclusive: after any sequence of interaction operations from the
mount state at most one of selectedNodeId and selectedRouteId is set, a
node click always leaves selectedRouteId none and a route click always
leaves selectedNodeId none. (NetworkTopologyVisualization does not enforce
this; see the counterexample.) -/
theorem adv_selection_mutually_exclusive :
    ∀ (ns : List Adv.UINode) (rs : List Adv.UIRoute) (ops : List Adv.AdvOp),
      ((Adv.runOps (Adv.initState ns rs) ops).selectedNodeId = none ∨
        (Adv.runOps (Adv.initState ns rs) ops).selectedRouteId = none) ∧
      (∀ (s : Adv.AdvState) (i : String),
        (Adv.applyOp s (Adv.AdvOp.nodeClick i)).selectedRouteId = none ∧
        (Adv.applyOp s (Adv.AdvOp.routeSelect i)).selectedNodeId = none) := by
  intro ns rs ops
  refine ⟨runOps_exclusive ops _ (Or.inl rfl), ?_⟩
  intro s i
  exact ⟨rfl, rfl⟩

/-- C1 counterexample. In NetworkTopologyVisualization, clicking a node and
then selecting a route from the side panel leaves both a selected node and
a selected route: the claimed invariant fails on this component. -/
theorem ntv_selection_not_exclusive :
    ((NTV.handleRouteSelect
        (NTV.handleMouseDown (NTV.initState [sampleNTVNode] [sampleSceneRoute])
          (0, 0))
        sampleSceneRoute).selectedNode.isSome = true) ∧
    ((NTV.handleRouteSelect
        (NTV.handleMouseDown (NTV.initState [sampleNTVNode] [sampleSceneRoute])
          (0, 0))
        sampleSceneRoute).selectedRoute.isSome = true) := by
  norm_num [NTV.handleRouteSelect, NTV.handleRouteHover, NTV.handleMouseDown,
    NTV.initState, getMousePos, withinCircle, sampleNTVNode, sampleSceneRoute,
    List.find?]

/-- C9 (confirmed). With an empty input node list the initialization effect
of either component returns early and the scene stays empty, whatever the
route list and the random source. -/
theorem empty_node_list_renders_nothing :
    ∀ (rs : List NetworkRoute) (rand : ℕ → ℚ),
      Adv.initCanvas [] rs rand = ([], []) ∧
      NTV.initNetwork [] rs rand = ([], []) :=
  fun _ _ => ⟨rfl, rfl⟩

/-- C10 (confirmed). The reset handlers set zoom to 1 and pan to (0,0),
clear the selected node, selected route and hover, clear every per-node
selection flag and per-route highlight flag, and leave everything else
unchanged: node positions (in particular positions changed by dragging in
NetworkTopologyVisualization) and the display toggles keep their values. In
the Advanced component the flag clearing happens through the
synchronization effects that follow the handler. -/
theorem reset_restores_view_state_only :
    ∀ (s : Adv.AdvState) (t : NTV.State),
      (Adv.syncFlags (Adv.handleReset s)).zoom = 1 ∧
      (Adv.syncFlags (Adv.handleReset s)).pan = (0, 0) ∧
      (Adv.syncFlags (Adv.handleReset s)).selectedNodeId = none ∧
      (Adv.syncFlags (Adv.handleReset s)).selectedRouteId = none ∧
      (Adv.syncFlags (Adv.handleReset s)).hoveredNodeId = none ∧
      (Adv.syncFlags (Adv.handleReset s)).canvasNodes =
        s.canvasNodes.map (fun n =>
          { n with isSelected := false, isHovered := false }) ∧
      (Adv.syncFlags (Adv.handleReset s)).canvasRoutes =
        s.canvasRoutes.map (fun r => { r with isHighlighted := false }) ∧
      (Adv.syncFlags (Adv.handleReset s)).showLabels = s.showLabels ∧
      (Adv.syncFlags (Adv.handleReset s)).showGrid = s.showGrid ∧
      (Adv.syncFlags (Adv.handleReset s)).showRoutes = s.showRoutes ∧
      (NTV.handleReset t).zoom = 1 ∧
      (NTV.handleReset t).pan = (0, 0) ∧
      (NTV.handleReset t).selectedNode = none ∧
      (NTV.handleReset t).selectedRoute = none ∧
      (NTV.handleReset t).nodes =
        t.nodes.map (fun n => { n with isSelected := false }) ∧
      (NTV.handleReset t).routes =
        t.routes.map (fun r => { r with isHighlighted := false }) ∧
      (NTV.handleReset t).showLabels = t.showLabels ∧
      (NTV.handleReset t).showRoutes = t.showRoutes ∧
      (NTV.handleReset t).isDragging = t.isDragging := by
  intro s t
  refine ⟨rfl, rfl, rfl, rfl, rfl, ?_, ?_, rfl, rfl, rfl,
    rfl, rfl, rfl, rfl, rfl, rfl, rfl, rfl, rfl⟩
  · simp [Adv.syncFlags, Adv.handleReset, someBeqNone]
  · simp [Adv.syncFlags, Adv.handleReset, someBeqNone]

/-- C7 (corrected). In the AdvancedNetworkTopology component a click behaves
as claimed: hitting the already-selected node deselects it, hitting another
node selects it, both cases clear the route selection, and a miss clears
both selections. (NetworkTopologyVisualization neither toggles nor clears
the route selection; see the counterexample.) -/
theorem adv_click_toggles_selection :
    ∀ (s : Adv.AdvState) (client : ℚ × ℚ),
      (∀ n : Adv.UINode,
        Adv.nodeAtPoint s.canvasNodes (getMousePos s.pan s.zoom client) =
            some n →
          ((s.selectedNodeId = some n.id →
              (Adv.handleClick s client).selectedNodeId = none) ∧
            (s.selectedNodeId ≠ some n.id →
              (Adv.handleClick s client).selectedNodeId = some n.id) ∧
            (Adv.handleClick s client).selectedRouteId = none)) ∧
      (Adv.nodeAtPoint s.canvasNodes (getMousePos s.pan s.zoom client) =
          none →
        (Adv.handleClick s client).selectedNodeId = none ∧
        (Adv.handleClick s client).selectedRouteId = none) := by
  intro s client
  constructor
  · intro n hn
    have hred : Adv.handleClick s client = Adv.handleNodeClick s n.id := by
      show (match Adv.nodeAtPoint s.canvasNodes
          (getMousePos s.pan s.zoom client) with
        | some clickedNode => Adv.handleNodeClick s clickedNode.id
        | none => Adv.handleCanvasClick s) = Adv.handleNodeClick s n.id
      rw [hn]
    refine ⟨?_, ?_, ?_⟩
    · intro hsel
      rw [hred]
      simp [Adv.handleNodeClick, hsel]
    · intro hsel
      rw [hred]
      simp [Adv.handleNodeClick, hsel]
    · rw [hred]; rfl
  · intro hn
    have hred : Adv.handleClick s client = Adv.handleCanvasClick s := by
      show (match Adv.nodeAtPoint s.canvasNodes
          (getMousePos s.pan s.zoom client) with
        | some clickedNode => Adv.handleNodeClick s clickedNode.id
        | none => Adv.handleCanvasClick s) = Adv.handleCanvasClick s
      rw [hn]
    rw [hred]
    exact ⟨rfl, rfl⟩

/-- C7 witness: clicking the sample node from the mount state selects it
and leaves no route selection. -/
theorem adv_click_toggles_selection_witness :
    (Adv.handleClick (Adv.initState [sampleUINodeA] []) (0, 0)).selectedNodeId
        = some "a" ∧
    (Adv.handleClick (Adv.initState [sampleUINodeA] []) (0, 0)).selectedRouteId
        = none := by
  have hn : Adv.nodeAtPoint (Adv.initState [sampleUINodeA] []).canvasNodes
      (getMousePos (Adv.initState [sampleUINodeA] []).pan
        (Adv.initState [sampleUINodeA] []).zoom (0, 0)) =
        some sampleUINodeA := by
    norm_num [Adv.nodeAtPoint, getMousePos, withinCircle, Adv.initState,
      sampleUINodeA, List.find?]
  have h := (adv_click_toggles_selection (Adv.initState [sampleUINodeA] [])
      (0, 0)).1 sampleUINodeA hn
  exact ⟨h.2.1 (by simp [Adv.initState]), h.2.2⟩

/-- C7 counterexample. In NetworkTopologyVisualization, clicking the
already-selected node leaves it selected (no toggle), and clicking empty
background does not clear a route selection. -/
theorem ntv_click_does_not_toggle :
    ((NTV.handleMouseDown
        (NTV.handleMouseDown (NTV.initState [sampleNTVNode] []) (0, 0))
        (0, 0)).selectedNode.isSome = true) ∧
    ((NTV.handleMouseDown
        (NTV.handleRouteSelect (NTV.initState [sampleNTVNode] [sampleSceneRoute])
          sampleSceneRoute) (1000, 1000)).selectedRoute.isSome = true) := by
  constructor
  · norm_num [NTV.handleMouseDown, NTV.initState, getMousePos, withinCircle,
      sampleNTVNode, List.find?]
  · norm_num [NTV.handleMouseDown, NTV.handleRouteSelect, NTV.handleRouteHover,
      NTV.initState, getMousePos, withinCircle, sampleNTVNode,
      sampleSceneRoute, List.find?]

/-- C6 (confirmed). Pointer hit-testing applies the exact inverse transform
(client - pan) / zoom of the render transform pan + zoom * world; with
zoom 2 and pan (100, 50) the device point (300, 150) maps to the world
point (100, 50); the hit result is the first node in iteration order whose
circle contains the world point, demonstrated to differ from the node with
the nearest center when nodes overlap. -/
theorem hit_test_inverse_transform :
    (∀ (pan : ℚ × ℚ) (zoom : ℚ) (p : ℚ × ℚ), zoom ≠ 0 →
      getMousePos pan zoom (canvasTransform pan zoom p) = p ∧
      canvasTransform pan zoom (getMousePos pan zoom p) = p) ∧
    getMousePos (100, 50) 2 (300, 150) = (100, 50) ∧
    (∀ (nodes : List Adv.UINode) (w : ℚ × ℚ) (n : Adv.UINode),
      Adv.nodeAtPoint nodes w = some n →
        withinCircle w.1 w.2 n.x n.y n.radius = true ∧
        ∃ pre post, nodes = pre ++ n :: post ∧
          ∀ m ∈ pre, withinCircle w.1 w.2 m.x m.y m.radius = false) ∧
    (Adv.nodeAtPoint [sampleUINodeA, sampleUINodeB] (12, 0) =
        some sampleUINodeA ∧
      (12 - sampleUINodeB.x) * (12 - sampleUINodeB.x) +
          (0 - sampleUINodeB.y) * (0 - sampleUINodeB.y) <
        (12 - sampleUINodeA.x) * (12 - sampleUINodeA.x) +
          (0 - sampleUINodeA.y) * (0 - sampleUINodeA.y)) := by
  refine ⟨?_, ?_, ?_, ?_, ?_⟩
  · intro pan zoom p hz
    constructor
    · rw [Prod.ext_iff]
      constructor <;> (simp only [getMousePos, canvasTransform]; field_simp)
    · rw [Prod.ext_iff]
      constructor <;>
        (simp only [getMousePos, canvasTransform]; field_simp)
  · norm_num [getMousePos, Prod.ext_iff]
  · intro nodes w n hn
    rw [Adv.nodeAtPoint, List.find?_eq_some] at hn
    obtain ⟨hp, pre, post, hsplit, hpre⟩ := hn
    refine ⟨hp, pre, post, hsplit, ?_⟩
    intro m hm
    simpa using hpre m hm
  · norm_num [Adv.nodeAtPoint, List.find?, withinCircle, sampleUINodeA,
      sampleUINodeB]
  · norm_num [sampleUINodeA, sampleUINodeB]

/-- C6 witness: the inverse-transform round trip at concrete values and
the containment test at the concrete hit result. -/
theorem hit_test_inverse_transform_witness :
    getMousePos (100, 50) 2 (canvasTransform (100, 50) 2 (7, 9)) = (7, 9) ∧
    withinCircle 12 0 sampleUINodeA.x sampleUINodeA.y sampleUINodeA.radius
      = true :=
  ⟨((hit_test_inverse_transform.1 (100, 50) 2 (7, 9)) (by norm_num)).1,
    ((hit_test_inverse_transform.2.2.1 [sampleUINodeA, sampleUINodeB] (12, 0)
        sampleUINodeA) hit_test_inverse_transform.2.2.2.1).1⟩

/-- C3 (confirmed). A route whose from_id or to_id resolves to no node
produces no scene edge: in AdvancedNetworkTopology building the canvas
routes ignores exactly the unresolvable routes and every produced canvas
route carries two resolved endpoint nodes; in NetworkTopologyVisualization
drawRoute draws nothing for an unresolvable route. -/
theorem dangling_routes_dropped :
    (∀ (ns : List Adv.CanvasNode) (rs : List NetworkRoute),
      Adv.newCanvasRoutes ns rs =
        Adv.newCanvasRoutes ns (rs.filter (fun r =>
          (ns.find? (fun n => n.id == r.from_id)).isSome &&
            (ns.find? (fun n => n.id == r.to_id)).isSome))) ∧
    (∀ (ns : List Adv.CanvasNode) (rs : List NetworkRoute)
        (cr : Adv.CanvasRoute), cr ∈ Adv.newCanvasRoutes ns rs →
      ∃ r ∈ rs, ∃ f t : Adv.CanvasNode,
        ns.find? (fun n => n.id == r.from_id) = some f ∧
        ns.find? (fun n => n.id == r.to_id) = some t ∧
        cr = Adv.mkCanvasRoute r f t) ∧
    (∀ (nodes : List NTV.SceneNode) (route : NTV.SceneRoute),
      (nodes.find? (fun n => n.id == route.fromNodeId) = none ∨
        nodes.find? (fun n => n.id == route.toNodeId) = none) →
      NTV.drawRoute nodes route = none) := by
  refine ⟨?_, ?_, ?_⟩
  · intro ns rs
    induction rs with
    | nil => rfl
    | cons r tl ih =>
        unfold Adv.newCanvasRoutes at ih ⊢
        rw [List.filterMap_cons, List.filter_cons]
        cases hf : ns.find? (fun n => n.id == r.from_id) with
        | none => simp [hf, ih]
        | some f =>
            cases ht : ns.find? (fun n => n.id == r.to_id) with
            | none => simp [hf, ht, ih]
            | some t => simp [hf, ht, ih, List.filterMap_cons]
  · intro ns rs cr h
    rw [Adv.newCanvasRoutes] at h
    rcases List.mem_filterMap.mp h with ⟨r, hr, hfr⟩
    cases hf : ns.find? (fun n => n.id == r.from_id) with
    | none => rw [hf] at hfr; simp at hfr
    | some f =>
        cases ht : ns.find? (fun n => n.id == r.to_id) with
        | none => rw [hf, ht] at hfr; simp at hfr
        | some t =>
            rw [hf, ht] at hfr
            refine ⟨r, hr, f, t, hf, ht, ?_⟩
            injection hfr with h'
            exact h'.symm
  · intro nodes route h
    rcases h with h | h
    · simp only [NTV.drawRoute]
      rw [h]
    · cases hf : nodes.find? (fun n => n.id == route.fromNodeId) with
      | none => simp only [NTV.drawRoute]; rw [hf]
      | some f => simp only [NTV.drawRoute]; rw [hf, h]

/-- C3 witness: with no nodes, drawRoute draws nothing for the sample
route. -/
theorem dangling_routes_dropped_witness :
    NTV.drawRoute [] sampleSceneRoute = none :=
  dangling_routes_dropped.2.2 [] sampleSceneRoute (Or.inl rfl)

lemma ratio_scale_bounds (num den pad len : ℚ) (h0 : 0 ≤ num) (h1 : num ≤ den)
    (hden : 0 < den) (hlen : 0 ≤ len - 2 * pad) :
    pad ≤ pad + num / den * (len - 2 * pad) ∧
      pad + num / den * (len - 2 * pad) ≤ len - pad := by
  have ht0 : 0 ≤ num / den := div_nonneg h0 hden.le
  have ht1 : num / den ≤ 1 := (div_le_one hden).2 h1
  have hA : 0 ≤ num / den * (len - 2 * pad) := mul_nonneg ht0 hlen
  have hB : num / den * (len - 2 * pad) ≤ len - 2 * pad := by
    calc num / den * (len - 2 * pad) ≤ 1 * (len - 2 * pad) :=
        mul_le_mul_of_nonneg_right ht1 hlen
      _ = len - 2 * pad := one_mul _
  exact ⟨by linarith, by linarith⟩

lemma projX_eval (pad w m M q : ℚ) (hmM : M ≠ m) :
    projX pad w (.fin m) (.fin M) (.fin q) =
      .fin (pad + (q - m) / (M - m) * (w - 2 * pad)) := by
  unfold projX
  rw [JSNum.fin_sub_fin, JSNum.fin_sub_fin,
    JSNum.fin_div_fin _ _ (sub_ne_zero.2 hmM), JSNum.fin_mul_fin,
    JSNum.fin_add_fin]

lemma projY_eval (pad h m M q : ℚ) (hmM : M ≠ m) :
    projY pad h (.fin m) (.fin M) (.fin q) =
      .fin (pad + (M - q) / (M - m) * (h - 2 * pad)) := by
  unfold projY
  rw [JSNum.fin_sub_fin, JSNum.fin_sub_fin,
    JSNum.fin_div_fin _ _ (sub_ne_zero.2 hmM), JSNum.fin_mul_fin,
    JSNum.fin_add_fin]

lemma projY_formula_antitone (pad len m M q1 q2 : ℚ) (hmM : m < M)
    (hlen : 0 < len - 2 * pad) (h12 : q1 < q2) :
    pad + (M - q2) / (M - m) * (len - 2 * pad) <
      pad + (M - q1) / (M - m) * (len - 2 * pad) := by
  have hMm : 0 < M - m := sub_pos.2 hmM
  have hnum : M - q2 < M - q1 := by linarith
  have hdiv : (M - q2) / (M - m) < (M - q1) / (M - m) :=
    (div_lt_div_iff_of_pos_right hMm).2 hnum
  have := mul_lt_mul_of_pos_right hdiv hlen
  linarith

lemma mem_buildNodes (minLng maxLng minLat maxLat : JSNum) (rand : ℕ → ℚ) :
    ∀ (i : ℕ) (l : List NetworkNode) (cn : Adv.CanvasNode),
      cn ∈ Adv.buildNodes minLng maxLng minLat maxLat rand i l →
      ∃ n ∈ l, ∃ j : ℕ, cn = Adv.mkCanvasNode minLng maxLng minLat maxLat
        (rand (2 * j)) (rand (2 * j + 1)) n := by
  intro i l
  induction l generalizing i with
  | nil =>
      intro cn h
      rw [Adv.buildNodes] at h
      exact absurd h (List.not_mem_nil cn)
  | cons nd tl ih =>
      intro cn h
      rw [Adv.buildNodes] at h
      rcases List.mem_cons.mp h with h | h
      · exact ⟨nd, List.mem_cons_self nd tl, i, h⟩
      · rcases ih (i + 1) cn h with ⟨n, hn, j, hj⟩
        exact ⟨n, List.mem_cons_of_mem _ hn, j, hj⟩

lemma mem_buildSceneNodes (minLng maxLng minLat maxLat : JSNum) (rand : ℕ → ℚ) :
    ∀ (i : ℕ) (l : List NetworkNode) (sn : NTV.SceneNode),
      sn ∈ NTV.buildSceneNodes minLng maxLng minLat maxLat rand i l →
      ∃ n ∈ l, ∃ j : ℕ, sn = NTV.mkSceneNode minLng maxLng minLat maxLat
        (rand (2 * j)) (rand (2 * j + 1)) n := by
  intro i l
  induction l generalizing i with
  | nil =>
      intro sn h
      rw [NTV.buildSceneNodes] at h
      exact absurd h (List.not_mem_nil sn)
  | cons nd tl ih =>
      intro sn h
      rw [NTV.buildSceneNodes] at h
      rcases List.mem_cons.mp h with h | h
      · exact ⟨nd, List.mem_cons_self nd tl, i, h⟩
      · rcases ih (i + 1) sn h with ⟨n, hn, j, hj⟩
        exact ⟨n, List.mem_cons_of_mem _ hn, j, hj⟩

lemma mkCanvasNode_coords_nondeg (mLng MLng mLat MLat rx ry : ℚ)
    (n : NetworkNode) (qlng qlat : ℚ) (hlng : n.lng = .fin qlng)
    (hlat : n.lat = .fin qlat) (hLng : MLng ≠ mLng) (hLat : MLat ≠ mLat) :
    (Adv.mkCanvasNode (.fin mLng) (.fin MLng) (.fin mLat) (.fin MLat)
        rx ry n).x =
      .fin (Adv.padding + (qlng - mLng) / (MLng - mLng) *
        (Adv.canvasWidth - 2 * Adv.padding)) ∧
    (Adv.mkCanvasNode (.fin mLng) (.fin MLng) (.fin mLat) (.fin MLat)
        rx ry n).y =
      .fin (Adv.padding + (MLat - qlat) / (MLat - mLat) *
        (Adv.canvasHeight - 2 * Adv.padding)) := by
  have hseq : ((JSNum.fin MLng).seq (.fin mLng) ||
      (JSNum.fin MLat).seq (.fin mLat)) = false := by
    simp only [JSNum.seq_fin_fin, Bool.or_eq_false_iff]
    exact ⟨beq_eq_false_iff_ne.2 hLng, beq_eq_false_iff_ne.2 hLat⟩
  unfold Adv.mkCanvasNode
  rw [hseq]
  simp only [Bool.false_eq_true, if_false]
  rw [hlng, hlat, projX_eval _ _ _ _ _ hLng, projY_eval _ _ _ _ _ hLat]
  exact ⟨rfl, rfl⟩

lemma mkSceneNode_coords_nondeg (mLng MLng mLat MLat rx ry : ℚ)
    (n : NetworkNode) (qlng qlat : ℚ) (hlng : n.lng = .fin qlng)
    (hlat : n.lat = .fin qlat) (hLng : MLng ≠ mLng) (hLat : MLat ≠ mLat) :
    (NTV.mkSceneNode (.fin mLng) (.fin MLng) (.fin mLat) (.fin MLat)
        rx ry n).x =
      .fin (NTV.padding + (qlng - mLng) / (MLng - mLng) *
        (NTV.canvasWidth - 2 * NTV.padding)) ∧
    (NTV.mkSceneNode (.fin mLng) (.fin MLng) (.fin mLat) (.fin MLat)
        rx ry n).y =
      .fin (NTV.padding + (MLat - qlat) / (MLat - mLat) *
        (NTV.canvasHeight - 2 * NTV.padding)) := by
  unfold NTV.mkSceneNode
  rw [hlng, hlat, projX_eval _ _ _ _ _ hLng, projY_eval _ _ _ _ _ hLat]
  exact ⟨rfl, rfl⟩

/-- C5 (confirmed). For finite coordinates with non-degenerate spread,
every projected coordinate of either component lies within the padded
rectangle ([pad, dimension - pad] on both axes), and the y axis is
inverted: a larger latitude projects to a strictly smaller y. -/
theorem projection_within_padded_bounds :
    ∀ (inputNodes : List NetworkNode) (rand : ℕ → ℚ) (mLng MLng mLat MLat : ℚ),
      JSNum.jsMinList (inputNodes.map (·.lng)) = .fin mLng →
      JSNum.jsMaxList (inputNodes.map (·.lng)) = .fin MLng →
      JSNum.jsMinList (inputNodes.map (·.lat)) = .fin mLat →
      JSNum.jsMaxList (inputNodes.map (·.lat)) = .fin MLat →
      mLng < MLng → mLat < MLat →
      (∀ cn ∈ Adv.newCanvasNodes inputNodes rand,
        ∃ qx qy : ℚ, cn.x = .fin qx ∧ cn.y = .fin qy ∧
          Adv.padding ≤ qx ∧ qx ≤ Adv.canvasWidth - Adv.padding ∧
          Adv.padding ≤ qy ∧ qy ≤ Adv.canvasHeight - Adv.padding) ∧
      (∀ sn ∈ NTV.networkNodes inputNodes rand,
        ∃ qx qy : ℚ, sn.x = .fin qx ∧ sn.y = .fin qy ∧
          NTV.padding ≤ qx ∧ qx ≤ NTV.canvasWidth - NTV.padding ∧
          NTV.padding ≤ qy ∧ qy ≤ NTV.canvasHeight - NTV.padding) ∧
      (∀ lat1 lat2 : ℚ, mLat ≤ lat1 → lat1 < lat2 → lat2 ≤ MLat →
        ∀ pad len : ℚ, 0 < len - 2 * pad →
          ∃ y1 y2 : ℚ,
            projY pad len (.fin mLat) (.fin MLat) (.fin lat1) = .fin y1 ∧
            projY pad len (.fin mLat) (.fin MLat) (.fin lat2) = .fin y2 ∧
            y2 < y1) := by
  intro inputNodes rand mLng MLng mLat MLat hminLng hmaxLng hminLat hmaxLat
    hLng hLat
  have hLngne : MLng ≠ mLng := fun h => absurd (h ▸ hLng) (lt_irrefl _)
  have hLatne : MLat ≠ mLat := fun h => absurd (h ▸ hLat) (lt_irrefl _)
  refine ⟨?_, ?_, ?_⟩
  · intro cn hcn
    simp only [Adv.newCanvasNodes] at hcn
    rw [hminLng, hmaxLng, hminLat, hmaxLat] at hcn
    rcases mem_buildNodes _ _ _ _ rand 0 inputNodes cn hcn with ⟨n, hn, j, hj⟩
    have hlngmem : n.lng ∈ inputNodes.map (·.lng) :=
      List.mem_map_of_mem _ hn
    have hlatmem : n.lat ∈ inputNodes.map (·.lat) :=
      List.mem_map_of_mem _ hn
    rcases JSNum.mem_fin_of_minmax _ _ _ hminLng hmaxLng _ hlngmem with
      ⟨qlng, hqlng, hq1, hq2⟩
    rcases JSNum.mem_fin_of_minmax _ _ _ hminLat hmaxLat _ hlatmem with
      ⟨qlat, hqlat, hp1, hp2⟩
    rcases mkCanvasNode_coords_nondeg mLng MLng mLat MLat _ _ n qlng qlat
      hqlng hqlat hLngne hLatne with ⟨hx, hy⟩
    rw [hj]
    refine ⟨_, _, hx, hy, ?_⟩
    have hbx := ratio_scale_bounds (qlng - mLng) (MLng - mLng) Adv.padding
      Adv.canvasWidth (by linarith) (by linarith) (by linarith)
      (by norm_num [Adv.padding, Adv.canvasWidth])
    have hby := ratio_scale_bounds (MLat - qlat) (MLat - mLat) Adv.padding
      Adv.canvasHeight (by linarith) (by linarith) (by linarith)
      (by norm_num [Adv.padding, Adv.canvasHeight])
    exact ⟨hbx.1, hbx.2, hby.1, hby.2⟩
  · intro sn hsn
    simp only [NTV.networkNodes] at hsn
    rw [hminLng, hmaxLng, hminLat, hmaxLat] at hsn
    rcases mem_buildSceneNodes _ _ _ _ rand 0 inputNodes sn hsn with
      ⟨n, hn, j, hj⟩
    have hlngmem : n.lng ∈ inputNodes.map (·.lng) :=
      List.mem_map_of_mem _ hn
    have hlatmem : n.lat ∈ inputNodes.map (·.lat) :=
      List.mem_map_of_mem _ hn
    rcases JSNum.mem_fin_of_minmax _ _ _ hminLng hmaxLng _ hlngmem with
      ⟨qlng, hqlng, hq1, hq2⟩
    rcases JSNum.mem_fin_of_minmax _ _ _ hminLat hmaxLat _ hlatmem with
      ⟨qlat, hqlat, hp1, hp2⟩
    rcases mkSceneNode_coords_nondeg mLng MLng mLat MLat _ _ n qlng qlat
      hqlng hqlat hLngne hLatne with ⟨hx, hy⟩
    rw [hj]
    refine ⟨_, _, hx, hy, ?_⟩
    have hbx := ratio_scale_bounds (qlng - mLng) (MLng - mLng) NTV.padding
      NTV.canvasWidth (by linarith) (by linarith) (by linarith)
      (by norm_num [NTV.padding, NTV.canvasWidth])
    have hby := ratio_scale_bounds (MLat - qlat) (MLat - mLat) NTV.padding
      NTV.canvasHeight (by linarith) (by linarith) (by linarith)
      (by norm_num [NTV.padding, NTV.canvasHeight])
    exact ⟨hbx.1, hbx.2, hby.1, hby.2⟩
  · intro lat1 lat2 h1 h12 h2 pad len hlen
    refine ⟨_, _, projY_eval _ _ _ _ _ hLatne, projY_eval _ _ _ _ _ hLatne, ?_⟩
    exact projY_formula_antitone pad len mLat MLat lat1 lat2 hLat hlen h12

lemma self_sub_fin_zero_or_nan (v : JSNum) :
    v - v = .fin 0 ∨ v - v = .nan := by
  cases v with
  | fin q => left; rw [JSNum.fin_sub_fin]; norm_num
  | posInf => right; rfl
  | negInf => right; rfl
  | nan => right; rfl

lemma jsSqrt_zero : JSNum.jsSqrt (.fin 0) = .fin 0 := by
  have h0 : Rat.sqrt 0 = 0 := by simpa using Rat.sqrt_eq 0
  simp [JSNum.jsSqrt, h0]

/-- C2 (corrected). The connector-geometry computation has no guard on the
distance division: for a route whose resolved endpoints have coincident
centers, the edge is still produced (membership conjunct) and all four
trimmed endpoint coordinates are NaN, in both components. The computation
is total, so no crash occurs, but the edge is not skipped and non-finite
endpoint coordinates are produced, contrary to the claim. -/
theorem coincident_centers_produce_nan_endpoints :
    (∀ (r : NetworkRoute) (f t : Adv.CanvasNode), t.x = f.x → t.y = f.y →
      (Adv.mkCanvasRoute r f t).fromX = .nan ∧
      (Adv.mkCanvasRoute r f t).fromY = .nan ∧
      (Adv.mkCanvasRoute r f t).toX = .nan ∧
      (Adv.mkCanvasRoute r f t).toY = .nan) ∧
    (∀ (ns : List Adv.CanvasNode) (rs : List NetworkRoute) (r : NetworkRoute)
        (f t : Adv.CanvasNode), r ∈ rs →
      ns.find? (fun n => n.id == r.from_id) = some f →
      ns.find? (fun n => n.id == r.to_id) = some t →
      Adv.mkCanvasRoute r f t ∈ Adv.newCanvasRoutes ns rs) ∧
    (∀ (nodes : List NTV.SceneNode) (route : NTV.SceneRoute)
        (f t : NTV.SceneNode),
      nodes.find? (fun n => n.id == route.fromNodeId) = some f →
      nodes.find? (fun n => n.id == route.toNodeId) = some t →
      t.x = f.x → t.y = f.y →
      ∃ seg, NTV.drawRoute nodes route = some seg ∧ seg.fromX = .nan ∧
        seg.fromY = .nan ∧ seg.toX = .nan ∧ seg.toY = .nan) := by
  refine ⟨?_, ?_, ?_⟩
  · intro r f t hx hy
    simp only [Adv.mkCanvasRoute]
    rw [hx, hy]
    rcases self_sub_fin_zero_or_nan f.x with h1 | h1 <;>
      rcases self_sub_fin_zero_or_nan f.y with h2 | h2 <;>
        rw [h1, h2] <;>
        refine ⟨?_, ?_, ?_, ?_⟩ <;>
        simp [jsSqrt_zero, JSNum.jsSqrt]
  · intro ns rs r f t hr hf ht
    rw [Adv.newCanvasRoutes]
    exact List.mem_filterMap.mpr ⟨r, hr, by rw [hf, ht]⟩
  · intro nodes route f t hf ht hx hy
    simp only [NTV.drawRoute]
    rw [hf, ht]
    dsimp only
    rw [hx, hy]
    rcases self_sub_fin_zero_or_nan f.x with h1 | h1 <;>
      rcases self_sub_fin_zero_or_nan f.y with h2 | h2 <;>
        rw [h1, h2] <;>
        refine ⟨_, rfl, ?_, ?_, ?_, ?_⟩ <;>
        simp [jsSqrt_zero, JSNum.jsSqrt]

/-- Sample canvas node at a fixed position. -/
def sampleCanvasNodeA : Adv.CanvasNode :=
  { id := "a", name := "A", x := .fin 60, y := .fin 540, radius := 25,
    color := "#10B981", type := "farm", isSelected := false,
    isHovered := false }

/-- Second sample canvas node with the same center. -/
def sampleCanvasNodeB : Adv.CanvasNode :=
  { id := "b", name := "B", x := .fin 60, y := .fin 540, radius := 25,
    color := "#10B981", type := "farm", isSelected := false,
    isHovered := false }

/-- Sample route between the two coincident sample nodes. -/
def sampleRouteAB : NetworkRoute :=
  { id := "r", from_id := "a", to_id := "b", distance_km := 1,
    cost_per_trip := 1, vehicle_type := "truck" }

/-- C2 witness: the trimmed endpoints of the route between the two
coincident sample nodes are all NaN. -/
theorem coincident_centers_produce_nan_endpoints_witness :
    (Adv.mkCanvasRoute sampleRouteAB sampleCanvasNodeA
        sampleCanvasNodeB).fromX = .nan ∧
    (Adv.mkCanvasRoute sampleRouteAB sampleCanvasNodeA
        sampleCanvasNodeB).fromY = .nan ∧
    (Adv.mkCanvasRoute sampleRouteAB sampleCanvasNodeA
        sampleCanvasNodeB).toX = .nan ∧
    (Adv.mkCanvasRoute sampleRouteAB sampleCanvasNodeA
        sampleCanvasNodeB).toY = .nan :=
  coincident_centers_produce_nan_endpoints.1 sampleRouteAB
    sampleCanvasNodeA sampleCanvasNodeB rfl rfl

/-- Input node list with two coincident facilities and one distinct one
(so the coordinate spread is non-degenerate). -/
def cexNodes : List NetworkNode :=
  [{ id := "a", name := "A", type := "farm", lat := .fin 0, lng := .fin 0 },
   { id := "b", name := "B", type := "farm", lat := .fin 0, lng := .fin 0 },
   { id := "c", name := "C", type := "farm", lat := .fin 1, lng := .fin 1 }]

/-- One route between the two coincident facilities. -/
def cexRoutes : List NetworkRoute :=
  [{ id := "r", from_id := "a", to_id := "b", distance_km := 1,
     cost_per_trip := 1, vehicle_type := "truck" }]

/-- C2 counterexample. Running the full initialization on the concrete
input produces the route (it is not skipped) and its fromX endpoint is NaN
in the scene model, refuting the claimed guard. -/
theorem coincident_route_not_skipped :
    ((Adv.initCanvas cexNodes cexRoutes (fun _ => 0)).2.map
        (fun cr => cr.fromX)) = [JSNum.nan] := by
  have h0 : Rat.sqrt 0 = 0 := by simpa using Rat.sqrt_eq 0
  have hab : ("a" == "b") = false := by decide
  have hba : ("b" == "a") = false := by decide
  have hca : ("c" == "a") = false := by decide
  have hcb : ("c" == "b") = false := by decide
  norm_num [hab, hba, hca, hcb, Adv.initCanvas, Adv.newCanvasNodes,
    Adv.buildNodes,
    Adv.mkCanvasNode, Adv.newCanvasRoutes, Adv.mkCanvasRoute, cexNodes,
    cexRoutes, JSNum.jsMinList, JSNum.jsMaxList, JSNum.jsMin, JSNum.jsMax,
    JSNum.seq, projX, projY, fixNaN, JSNum.isNaN, nodeTypeConfig,
    JSNum.jsSqrt, h0, List.foldl, List.find?, List.filterMap, min_def,
    max_def, JSNum.fin_div_fin, Adv.padding, Adv.canvasWidth,
    Adv.canvasHeight]

lemma projX_not_inf (lngs : List JSNum) (lng : JSNum) (hmem : lng ∈ lngs)
    (pad w : ℚ) :
    projX pad w (JSNum.jsMinList lngs) (JSNum.jsMaxList lngs) lng ≠
        .posInf ∧
    projX pad w (JSNum.jsMinList lngs) (JSNum.jsMaxList lngs) lng ≠
        .negInf := by
  have hratio : ¬ ((lng - JSNum.jsMinList lngs) /
        (JSNum.jsMaxList lngs - JSNum.jsMinList lngs) = .posInf ∨
      (lng - JSNum.jsMinList lngs) /
        (JSNum.jsMaxList lngs - JSNum.jsMinList lngs) = .negInf) := by
    intro h
    rcases JSNum.div_eq_inf _ _ h with ⟨p, hnum, hp0, hden⟩ | ⟨hinf, q, hden⟩
    · rcases JSNum.sub_eq_fin _ _ _ hden with ⟨u, v, hu, hv, huv⟩
      have huv' : u = v := by linarith
      subst huv'
      rcases JSNum.mem_fin_of_minmax lngs u u hv hu lng hmem with
        ⟨qq, hqq, hle1, hle2⟩
      have hqq' : qq = u := le_antisymm hle2 hle1
      subst hqq'
      rw [hqq, hv, JSNum.fin_sub_fin, sub_self] at hnum
      injection hnum with hnum'
      exact hp0 hnum'.symm
    · rcases JSNum.sub_eq_fin _ _ _ hden with ⟨u, v, hu, hv, _⟩
      have hu' : lngs.foldl JSNum.jsMax .negInf = .fin u := hu
      have hv' : lngs.foldl JSNum.jsMin .posInf = .fin v := hv
      rcases hinf with hpos | hneg
      · rcases JSNum.sub_eq_posInf _ _ hpos with hl | hm
        · rcases JSNum.foldl_jsMax_of_mem_posInf lngs .negInf
              (hl ▸ hmem) with h' | h' <;> rw [h'] at hu' <;>
            exact absurd hu' (by simp)
        · rw [hm] at hv; exact absurd hv (by simp)
      · rcases JSNum.sub_eq_negInf _ _ hneg with hl | hm
        · rcases JSNum.foldl_jsMin_of_mem_negInf lngs .posInf
              (hl ▸ hmem) with h' | h' <;> rw [h'] at hv' <;>
            exact absurd hv' (by simp)
        · rw [hm] at hv; exact absurd hv (by simp)
  constructor <;> intro hx
  · unfold projX at hx
    rcases JSNum.mul_fin_eq_inf _ _
        (JSNum.fin_add_eq_inf _ _ (Or.inl hx)) with h | h
    · exact hratio (Or.inl h)
    · exact hratio (Or.inr h)
  · unfold projX at hx
    rcases JSNum.mul_fin_eq_inf _ _
        (JSNum.fin_add_eq_inf _ _ (Or.inr hx)) with h | h
    · exact hratio (Or.inl h)
    · exact hratio (Or.inr h)

lemma projY_not_inf (lats : List JSNum) (lat : JSNum) (hmem : lat ∈ lats)
    (pad h : ℚ) :
    projY pad h (JSNum.jsMinList lats) (JSNum.jsMaxList lats) lat ≠
        .posInf ∧
    projY pad h (JSNum.jsMinList lats) (JSNum.jsMaxList lats) lat ≠
        .negInf := by
  have hratio : ¬ ((JSNum.jsMaxList lats - lat) /
        (JSNum.jsMaxList lats - JSNum.jsMinList lats) = .posInf ∨
      (JSNum.jsMaxList lats - lat) /
        (JSNum.jsMaxList lats - JSNum.jsMinList lats) = .negInf) := by
    intro hh
    rcases JSNum.div_eq_inf _ _ hh with ⟨p, hnum, hp0, hden⟩ | ⟨hinf, q, hden⟩
    · rcases JSNum.sub_eq_fin _ _ _ hden with ⟨u, v, hu, hv, huv⟩
      have huv' : u = v := by linarith
      subst huv'
      rcases JSNum.mem_fin_of_minmax lats u u hv hu lat hmem with
        ⟨qq, hqq, hle1, hle2⟩
      have hqq' : qq = u := le_antisymm hle2 hle1
      subst hqq'
      rw [hqq, hu, JSNum.fin_sub_fin, sub_self] at hnum
      injection hnum with hnum'
      exact hp0 hnum'.symm
    · rcases JSNum.sub_eq_fin _ _ _ hden with ⟨u, v, hu, hv, _⟩
      have hu' : lats.foldl JSNum.jsMax .negInf = .fin u := hu
      have hv' : lats.foldl JSNum.jsMin .posInf = .fin v := hv
      rcases hinf with hpos | hneg
      · rcases JSNum.sub_eq_posInf _ _ hpos with hl | hm
        · rw [hl] at hu; exact absurd hu (by simp)
        · rcases JSNum.foldl_jsMin_of_mem_negInf lats .posInf
              (hm ▸ hmem) with h' | h' <;> rw [h'] at hv' <;>
            exact absurd hv' (by simp)
      · rcases JSNum.sub_eq_negInf _ _ hneg with hl | hm
        · rw [hl] at hu; exact absurd hu (by simp)
        · rcases JSNum.foldl_jsMax_of_mem_posInf lats .negInf
              (hm ▸ hmem) with h' | h' <;> rw [h'] at hu' <;>
            exact absurd hu' (by simp)
  constructor <;> intro hx
  · unfold projY at hx
    rcases JSNum.mul_fin_eq_inf _ _
        (JSNum.fin_add_eq_inf _ _ (Or.inl hx)) with hget | hget
    · exact hratio (Or.inl hget)
    · exact hratio (Or.inr hget)
  · unfold projY at hx
    rcases JSNum.mul_fin_eq_inf _ _
        (JSNum.fin_add_eq_inf _ _ (Or.inr hx)) with hget | hget
    · exact hratio (Or.inl hget)
    · exact hratio (Or.inr hget)

lemma fixNaN_isFin (v : JSNum) (fb : ℚ) (h1 : v ≠ .posInf)
    (h2 : v ≠ .negInf) : (fixNaN v fb).isFin = true := by
  cases v with
  | fin q => rfl
  | nan => rfl
  | posInf => exact absurd rfl h1
  | negInf => exact absurd rfl h2

lemma mkCanvasNode_isFin (inputNodes : List NetworkNode) (rx ry : ℚ)
    (n : NetworkNode) (hn : n ∈ inputNodes) :
    (Adv.mkCanvasNode (JSNum.jsMinList (inputNodes.map (·.lng)))
        (JSNum.jsMaxList (inputNodes.map (·.lng)))
        (JSNum.jsMinList (inputNodes.map (·.lat)))
        (JSNum.jsMaxList (inputNodes.map (·.lat))) rx ry n).x.isFin = true ∧
    (Adv.mkCanvasNode (JSNum.jsMinList (inputNodes.map (·.lng)))
        (JSNum.jsMaxList (inputNodes.map (·.lng)))
        (JSNum.jsMinList (inputNodes.map (·.lat)))
        (JSNum.jsMaxList (inputNodes.map (·.lat))) rx ry n).y.isFin
      = true := by
  have hxmem : n.lng ∈ inputNodes.map (·.lng) := List.mem_map_of_mem _ hn
  have hymem : n.lat ∈ inputNodes.map (·.lat) := List.mem_map_of_mem _ hn
  have hxinf := projX_not_inf (inputNodes.map (·.lng)) n.lng hxmem
    Adv.padding Adv.canvasWidth
  have hyinf := projY_not_inf (inputNodes.map (·.lat)) n.lat hymem
    Adv.padding Adv.canvasHeight
  simp only [Adv.mkCanvasNode]
  split
  · exact ⟨rfl, rfl⟩
  · exact ⟨fixNaN_isFin _ _ hxinf.1 hxinf.2, fixNaN_isFin _ _ hyinf.1 hyinf.2⟩

lemma mkSceneNode_isFin (inputNodes : List NetworkNode) (rx ry : ℚ)
    (n : NetworkNode) (hn : n ∈ inputNodes) :
    (NTV.mkSceneNode (JSNum.jsMinList (inputNodes.map (·.lng)))
        (JSNum.jsMaxList (inputNodes.map (·.lng)))
        (JSNum.jsMinList (inputNodes.map (·.lat)))
        (JSNum.jsMaxList (inputNodes.map (·.lat))) rx ry n).x.isFin = true ∧
    (NTV.mkSceneNode (JSNum.jsMinList (inputNodes.map (·.lng)))
        (JSNum.jsMaxList (inputNodes.map (·.lng)))
        (JSNum.jsMinList (inputNodes.map (·.lat)))
        (JSNum.jsMaxList (inputNodes.map (·.lat))) rx ry n).y.isFin
      = true := by
  have hxmem : n.lng ∈ inputNodes.map (·.lng) := List.mem_map_of_mem _ hn
  have hymem : n.lat ∈ inputNodes.map (·.lat) := List.mem_map_of_mem _ hn
  have hxinf := projX_not_inf (inputNodes.map (·.lng)) n.lng hxmem
    NTV.padding NTV.canvasWidth
  have hyinf := projY_not_inf (inputNodes.map (·.lat)) n.lat hymem
    NTV.padding NTV.canvasHeight
  simp only [NTV.mkSceneNode]
  exact ⟨fixNaN_isFin _ _ hxinf.1 hxinf.2, fixNaN_isFin _ _ hyinf.1 hyinf.2⟩

/-- C8 (confirmed). For every input, no scene node of either component
carries a non-finite coordinate: a NaN projection result is replaced
through the isNaN fallback, an infinite projection result cannot arise
(the infinity inversion lemmas), and the replacement value is a random
number inside the padded bounds. -/
theorem nonfinite_coordinates_replaced :
    ∀ (inputNodes : List NetworkNode) (rand : ℕ → ℚ),
      (∀ cn ∈ Adv.newCanvasNodes inputNodes rand,
        cn.x.isFin = true ∧ cn.y.isFin = true) ∧
      (∀ sn ∈ NTV.networkNodes inputNodes rand,
        sn.x.isFin = true ∧ sn.y.isFin = true) ∧
      (∀ (v : JSNum) (r pad len : ℚ), v.isNaN = true → 0 ≤ r → r < 1 →
        0 < len - 2 * pad →
        ∃ q : ℚ, fixNaN v (r * (len - 2 * pad) + pad) = .fin q ∧
          pad ≤ q ∧ q < len - pad) := by
  intro inputNodes rand
  refine ⟨?_, ?_, ?_⟩
  · intro cn hcn
    simp only [Adv.newCanvasNodes] at hcn
    rcases mem_buildNodes _ _ _ _ rand 0 inputNodes cn hcn with ⟨n, hn, j, hj⟩
    rw [hj]
    exact mkCanvasNode_isFin inputNodes _ _ n hn
  · intro sn hsn
    simp only [NTV.networkNodes] at hsn
    rcases mem_buildSceneNodes _ _ _ _ rand 0 inputNodes sn hsn with
      ⟨n, hn, j, hj⟩
    rw [hj]
    exact mkSceneNode_isFin inputNodes _ _ n hn
  · intro v r pad len hv hr0 hr1 hlen
    cases v with
    | nan =>
        refine ⟨r * (len - 2 * pad) + pad, rfl, ?_, ?_⟩
        · have : 0 ≤ r * (len - 2 * pad) := mul_nonneg hr0 hlen.le
          linarith
        · have : r * (len - 2 * pad) < 1 * (len - 2 * pad) :=
            mul_lt_mul_of_pos_right hr1 hlen
          linarith
    | fin q => exact absurd hv (by simp)
    | posInf => exact absurd hv (by simp [JSNum.isNaN])
    | negInf => exact absurd hv (by simp [JSNum.isNaN])

/-- Sample facility whose latitude is NaN. -/
def sampleInputNaN : NetworkNode :=
  { id := "z", name := "Z", type := "farm", lat := .nan, lng := .fin 0 }

/-- C8 witness: the node built from the NaN-latitude sample input has
finite coordinates, and a NaN coordinate is replaced by an in-bounds
value. -/
theorem nonfinite_coordinates_replaced_witness :
    ((Adv.mkCanvasNode (JSNum.jsMinList [JSNum.fin 0])
        (JSNum.jsMaxList [JSNum.fin 0]) (JSNum.jsMinList [JSNum.nan])
        (JSNum.jsMaxList [JSNum.nan]) (1/2) (1/2)
        sampleInputNaN).x.isFin = true ∧
      (Adv.mkCanvasNode (JSNum.jsMinList [JSNum.fin 0])
        (JSNum.jsMaxList [JSNum.fin 0]) (JSNum.jsMinList [JSNum.nan])
        (JSNum.jsMaxList [JSNum.nan]) (1/2) (1/2)
        sampleInputNaN).y.isFin = true) ∧
    ∃ q : ℚ, fixNaN .nan ((1:ℚ)/2 * (600 - 2 * 50) + 50) = .fin q ∧
      50 ≤ q ∧ q < 600 - 50 :=
  ⟨(nonfinite_coordinates_replaced [sampleInputNaN] (fun _ => 1/2)).1 _
      (List.mem_cons_self _ _),
    (nonfinite_coordinates_replaced [sampleInputNaN] (fun _ => 1/2)).2.2
      .nan (1/2) 50 600 rfl (by norm_num) (by norm_num) (by norm_num)⟩

/-- C4 (corrected). For distinct centers and nonnegative radii the
connector computation places fromPoint and toPoint by the unit direction
formula, and both trimmed endpoints lie exactly on their node circle
(distance to the center equals the radius). The segment direction equals
the center-to-center direction only under the extra condition that the
center distance exceeds r1 + r2: for overlapping circles the trimmed
endpoints pass each other and the direction is reversed (counterexample
below), so the unconditional direction claim is false. -/
theorem connector_endpoints_on_circle :
    ∀ x1 y1 r1 x2 y2 r2 : ℝ, ((x1, y1) : ℝ × ℝ) ≠ (x2, y2) →
      0 ≤ r1 → 0 ≤ r2 →
      (connectorGeometry x1 y1 r1 x2 y2 r2).1 =
        (x1 + (x2 - x1) / planeDist (x2, y2) (x1, y1) * r1,
         y1 + (y2 - y1) / planeDist (x2, y2) (x1, y1) * r1) ∧
      planeDist (connectorGeometry x1 y1 r1 x2 y2 r2).1 (x1, y1) = r1 ∧
      planeDist (connectorGeometry x1 y1 r1 x2 y2 r2).2 (x2, y2) = r2 ∧
      (r1 + r2 <
          Real.sqrt ((x2 - x1) * (x2 - x1) + (y2 - y1) * (y2 - y1)) →
        sameDir
          ((connectorGeometry x1 y1 r1 x2 y2 r2).2.1 -
              (connectorGeometry x1 y1 r1 x2 y2 r2).1.1,
            (connectorGeometry x1 y1 r1 x2 y2 r2).2.2 -
              (connectorGeometry x1 y1 r1 x2 y2 r2).1.2)
          (x2 - x1, y2 - y1)) := by
  intro x1 y1 r1 x2 y2 r2 hne hr1 hr2
  have hsum : 0 < (x2 - x1) * (x2 - x1) + (y2 - y1) * (y2 - y1) := by
    have h1 : 0 ≤ (x2 - x1) * (x2 - x1) := mul_self_nonneg _
    have h2 : 0 ≤ (y2 - y1) * (y2 - y1) := mul_self_nonneg _
    rcases eq_or_ne (x2 - x1) 0 with hdx | hdx
    · have hdy : y2 - y1 ≠ 0 := by
        intro hdy
        exact hne (by rw [Prod.mk.injEq]; constructor <;> linarith)
      have := mul_self_pos.mpr hdy
      linarith
    · have := mul_self_pos.mpr hdx
      linarith
  set L := Real.sqrt ((x2 - x1) * (x2 - x1) + (y2 - y1) * (y2 - y1))
    with hLdef
  have hLpos : 0 < L := Real.sqrt_pos.2 hsum
  have hLne : L ≠ 0 := ne_of_gt hLpos
  have hL2 : L * L = (x2 - x1) * (x2 - x1) + (y2 - y1) * (y2 - y1) :=
    Real.mul_self_sqrt hsum.le
  have hgeo : connectorGeometry x1 y1 r1 x2 y2 r2 =
      ((x1 + (x2 - x1) / L * r1, y1 + (y2 - y1) / L * r1),
       (x2 - (x2 - x1) / L * r2, y2 - (y2 - y1) / L * r2)) := rfl
  have hpd : planeDist (x2, y2) (x1, y1) = L := rfl
  refine ⟨by rw [hgeo, hpd], ?_, ?_, ?_⟩
  · rw [hgeo]
    unfold planeDist
    dsimp only
    have key1 : (x1 + (x2 - x1) / L * r1 - x1) *
          (x1 + (x2 - x1) / L * r1 - x1) +
        (y1 + (y2 - y1) / L * r1 - y1) *
          (y1 + (y2 - y1) / L * r1 - y1) = r1 * r1 := by
      field_simp
      linear_combination (-(r1 * r1)) * hL2
    rw [key1]
    exact Real.sqrt_mul_self hr1
  · rw [hgeo]
    unfold planeDist
    dsimp only
    have key2 : (x2 - (x2 - x1) / L * r2 - x2) *
          (x2 - (x2 - x1) / L * r2 - x2) +
        (y2 - (y2 - y1) / L * r2 - y2) *
          (y2 - (y2 - y1) / L * r2 - y2) = r2 * r2 := by
      field_simp
      linear_combination (-(r2 * r2)) * hL2
    rw [key2]
    exact Real.sqrt_mul_self hr2
  · intro hlt
    rw [hgeo]
    refine ⟨(L - (r1 + r2)) / L, div_pos (by linarith) hLpos, ?_⟩
    rw [Prod.mk.injEq]
    constructor
    · dsimp only
      field_simp
      ring
    · dsimp only
      field_simp
      ring

/-- C4 witness: for far-apart concrete circles the trimmed endpoint lies on
the first circle and the segment points from the first center to the
second. -/
theorem connector_endpoints_on_circle_witness :
    planeDist (connectorGeometry 0 0 25 60 80 30).1 (0, 0) = 25 ∧
    sameDir
      ((connectorGeometry 0 0 25 60 80 30).2.1 -
          (connectorGeometry 0 0 25 60 80 30).1.1,
        (connectorGeometry 0 0 25 60 80 30).2.2 -
          (connectorGeometry 0 0 25 60 80 30).1.2)
      (60 - 0, 80 - 0) := by
  have h := connector_endpoints_on_circle 0 0 25 60 80 30
    (by simp [Prod.ext_iff]) (by norm_num) (by norm_num)
  refine ⟨h.2.1, h.2.2.2 ?_⟩
  have hs : Real.sqrt (((60:ℝ) - 0) * (60 - 0) + (80 - 0) * (80 - 0))
      = 100 := by
    rw [show ((60:ℝ) - 0) * (60 - 0) + (80 - 0) * (80 - 0) = 100 * 100 by
      norm_num]
    exact Real.sqrt_mul_self (by norm_num)
  rw [hs]
  norm_num

/-- C4 counterexample. For the concrete overlapping circles centered (0,0)
radius 25 and (30,40) radius 30 (center distance 50 < 25 + 30), the
trimmed segment from (15,20) to (12,16) points opposite to the
center-to-center direction (30,40): the direction part of the claim fails
as stated. -/
theorem overlapping_nodes_reverse_direction :
    ¬ sameDir
      ((connectorGeometry 0 0 25 30 40 30).2.1 -
          (connectorGeometry 0 0 25 30 40 30).1.1,
        (connectorGeometry 0 0 25 30 40 30).2.2 -
          (connectorGeometry 0 0 25 30 40 30).1.2)
      (30 - 0, 40 - 0) := by
  have hs : Real.sqrt (((30:ℝ) - 0) * (30 - 0) + (40 - 0) * (40 - 0))
      = 50 := by
    rw [show ((30:ℝ) - 0) * (30 - 0) + (40 - 0) * (40 - 0) = 50 * 50 by
      norm_num]
    exact Real.sqrt_mul_self (by norm_num)
  have hgeo : connectorGeometry 0 0 25 30 40 30 = ((15, 20), (12, 16)) := by
    simp only [connectorGeometry]
    rw [hs]
    norm_num
  rw [hgeo]
  rintro ⟨t, ht, heq⟩
  rw [Prod.mk.injEq] at heq
  obtain ⟨h1, h2⟩ := heq
  norm_num at h1
  linarith

/-- Sample facility at the south-west corner of the sample spread. -/
def sampleInputA : NetworkNode :=
  { id := "a", name := "A", type := "farm", lat := .fin 0, lng := .fin 0 }

/-- Sample facility at the north-east corner of the sample spread. -/
def sampleInputB : NetworkNode :=
  { id := "b", name := "B", type := "retail", lat := .fin 1, lng := .fin 1 }

/-- C5 witness: on the concrete two-node input the projection hypotheses
hold and the inverted y axis maps the larger latitude strictly below. -/
theorem projection_within_padded_bounds_witness :
    ∃ y1 y2 : ℚ,
      projY 60 600 (.fin 0) (.fin 1) (.fin 0) = .fin y1 ∧
      projY 60 600 (.fin 0) (.fin 1) (.fin 1) = .fin y2 ∧ y2 < y1 := by
  have hminlng : JSNum.jsMinList ([sampleInputA, sampleInputB].map (·.lng))
      = .fin 0 := by
    norm_num [sampleInputA, sampleInputB, JSNum.jsMinList, List.foldl,
      JSNum.jsMin, min_def]
  have hmaxlng : JSNum.jsMaxList ([sampleInputA, sampleInputB].map (·.lng))
      = .fin 1 := by
    norm_num [sampleInputA, sampleInputB, JSNum.jsMaxList, List.foldl,
      JSNum.jsMax, max_def]
  have hminlat : JSNum.jsMinList ([sampleInputA, sampleInputB].map (·.lat))
      = .fin 0 := by
    norm_num [sampleInputA, sampleInputB, JSNum.jsMinList, List.foldl,
      JSNum.jsMin, min_def]
  have hmaxlat : JSNum.jsMaxList ([sampleInputA, sampleInputB].map (·.lat))
      = .fin 1 := by
    norm_num [sampleInputA, sampleInputB, JSNum.jsMaxList, List.foldl,
      JSNum.jsMax, max_def]
  exact (projection_within_padded_bounds [sampleInputA, sampleInputB]
      (fun _ => 0) 0 1 0 1 hminlng hmaxlng hminlat hmaxlat (by norm_num)
      (by norm_num)).2.2 0 1 le_rfl (by norm_num) le_rfl 60 600 (by norm_num)
